import Mathlib

/-!
Shallow embedding of the reliability evaluation engine of `src/calculations.ts`
(repository RimZotik/VS_1), together with theorems settling the frozen claims
about its specification.

Modelling conventions:
* JavaScript numbers are modelled as exact rationals (`ℚ`).  `Math.round`
  rounds half away from zero towards `+∞` on the values that occur here, i.e.
  `Math.round x = ⌊x + 1/2⌋`; `Number.EPSILON = 2⁻⁵²` is kept explicitly.
* Block and connection identifiers (opaque strings in the source) are `ℕ`.
* JavaScript `Map`s are association lists with `Map.set` semantics (update in
  place, new keys appended at the end — preserving the source's iteration
  order); `Set`s are duplicate-free lists in insertion order.
* Recursive traversals carry explicit fuel that provably dominates the number
  of steps the source performs, so every definition is executable.
-/

namespace VSOne

/-- A terminal side of a block (`"left" | "right"` in `types.ts`). -/
inductive Side where
  | left : Side
  | right : Side
deriving DecidableEq, Repr

/-- `Block` of `types.ts` restricted to the fields `calculations.ts` reads
(`id`, `number`, `reliability`, `isReserve`; the geometric fields `x`, `y`
are never consulted by the engine).  A missing `isReserve` is `false`. -/
structure Block where
  id : Nat
  number : Nat
  reliability : ℚ
  isReserve : Bool
deriving DecidableEq, Repr

/-- `Connection` of `types.ts`. -/
structure Connection where
  id : Nat
  fromBlockId : Nat
  toBlockId : Nat
  fromSide : Side
  toSide : Side
deriving DecidableEq, Repr

instance : Inhabited Block := ⟨⟨0, 0, 0, false⟩⟩

/-- `Number.EPSILON` (2⁻⁵²), added by `roundTo` before rounding. -/
def epsJS : ℚ := 1 / 2 ^ 52

/-- `roundTo` (`calculations.ts` lines 5-8):
`Math.round((value + Number.EPSILON) * 10^6) / 10^6` with the default
`DECIMAL_PLACES = 6` (the engine never passes another precision;
`Math.round x = ⌊x + 1/2⌋`).  Written with the executable `Rat.floor`. -/
def roundTo (value : ℚ) : ℚ :=
  ((Rat.floor ((value + epsJS) * 1000000 + 1 / 2) : ℤ) : ℚ) / 1000000

/-- `Rat.floor` agrees with the mathematical floor. -/
theorem ratFloor_eq_intFloor (q : ℚ) : (Rat.floor q : ℤ) = ⌊q⌋ := by
  rw [Rat.floor_def, Rat.floor_def']

/-- `roundTo` in terms of the mathematical floor. -/
theorem roundTo_eq_floor (value : ℚ) :
    roundTo value = (⌊(value + epsJS) * 1000000 + 1 / 2⌋ : ℚ) / 1000000 := by
  rw [roundTo, ratFloor_eq_intFloor]

theorem roundTo_zero : roundTo 0 = 0 := by
  have h : ⌊((0 : ℚ) + epsJS) * 1000000 + 1 / 2⌋ = 0 := by
    rw [Int.floor_eq_zero_iff]
    constructor
    · rw [epsJS]; norm_num
    · rw [epsJS]; norm_num
  rw [roundTo_eq_floor, h]
  norm_num

/-- `roundTo` produces an integer multiple of `10⁻⁶`. -/
theorem roundTo_den (x : ℚ) : ∃ k : ℤ, roundTo x = (k : ℚ) / 1000000 :=
  ⟨⌊(x + epsJS) * 1000000 + 1 / 2⌋, roundTo_eq_floor x⟩

/-- Rounding is idempotent: `roundTo (roundTo x) = roundTo x`. -/
theorem roundTo_idem (x : ℚ) : roundTo (roundTo x) = roundTo x := by
  obtain ⟨k, hk⟩ := roundTo_den x
  have harg : ((k : ℚ) / 1000000 + epsJS) * 1000000 + 1 / 2
      = (k : ℚ) + (epsJS * 1000000 + 1 / 2) := by ring
  have hfr : ⌊(epsJS * 1000000 + 1 / 2 : ℚ)⌋ = 0 := by
    rw [Int.floor_eq_zero_iff]
    constructor
    · rw [epsJS]; norm_num
    · rw [epsJS]; norm_num
  have : ⌊((k : ℚ) / 1000000 + epsJS) * 1000000 + 1 / 2⌋ = k := by
    rw [harg, Int.floor_int_add, hfr, add_zero]
  rw [hk, roundTo_eq_floor, this]

/-- A rational already on the `10⁻⁶` grid is a fixed point of `roundTo`. -/
theorem roundTo_grid (k : ℤ) : roundTo ((k : ℚ) / 1000000) = (k : ℚ) / 1000000 := by
  have harg : ((k : ℚ) / 1000000 + epsJS) * 1000000 + 1 / 2
      = (k : ℚ) + (epsJS * 1000000 + 1 / 2) := by ring
  have hfr : ⌊(epsJS * 1000000 + 1 / 2 : ℚ)⌋ = 0 := by
    rw [Int.floor_eq_zero_iff]
    constructor
    · rw [epsJS]; norm_num
    · rw [epsJS]; norm_num
  have : ⌊((k : ℚ) / 1000000 + epsJS) * 1000000 + 1 / 2⌋ = k := by
    rw [harg, Int.floor_int_add, hfr, add_zero]
  rw [roundTo_eq_floor, this]

/-- Decimal rendering of `|k| / 10⁶` used by `formatTo`: `toFixed(6)` followed
by stripping the trailing-zero suffix (and the dot when the fraction is all
zeros), as the regex replace `/\.?0+$/` does on a `toFixed(6)` string. -/
def fixedSixString (k : Nat) : String :=
  let ip := k / 1000000
  let fr := k % 1000000
  if fr = 0 then toString ip
  else
    let ds := toString fr
    let padded := String.mk (List.replicate (6 - ds.length) ('0')) ++ ds
    toString ip ++ "." ++ padded.dropRightWhile (fun c => c == '0')

/-- `formatTo` (`calculations.ts` lines 10-13): round to 6 decimals, print with
`toFixed(6)` and strip trailing zeros. -/
def formatTo (value : ℚ) : String :=
  let k : ℤ := Rat.floor ((value + epsJS) * 1000000 + 1 / 2)
  if k < 0 then "-" ++ fixedSixString k.natAbs else fixedSixString k.natAbs

/-- `binomialCoefficient` (`calculations.ts` lines 18-27); the source's loop
`for i = 1..k: result *= (n-i+1)/i` evaluated over exact rationals. -/
def binomialCoefficientLoop (n : Nat) : Nat → ℚ → ℚ
  | 0, acc => acc
  | i + 1, acc => binomialCoefficientLoop n i acc * ((n : ℚ) - (i + 1 : Nat) + 1) / (i + 1 : Nat)

def binomialCoefficient (n k : Nat) : ℚ :=
  if k > n then 0
  else if k = 0 ∨ k = n then 1
  else binomialCoefficientLoop n k 1

/-- `bernoulliProbability` (`calculations.ts` lines 33-37). -/
def bernoulliProbability (n k : Nat) (p : ℚ) : ℚ :=
  let q := 1 - p
  let c := binomialCoefficient n k
  c * p ^ k * q ^ (n - k)

section AssocHelpers

variable {α β : Type} [BEq α]

/-- Lookup in an association list (first match, keys are unique by
construction thanks to `assocSet`). -/
def assocGet (m : List (α × β)) (k : α) : Option β :=
  (m.find? (fun p => p.1 == k)).map (fun p => p.2)

/-- `Map.set` semantics: replace in place when the key exists, append at the
end otherwise (preserving JavaScript `Map` iteration order). -/
def assocSet (m : List (α × β)) (k : α) (v : β) : List (α × β) :=
  match m with
  | [] => [(k, v)]
  | (k', v') :: rest =>
      if k' == k then (k', v) :: rest else (k', v') :: assocSet rest k v

/-- `Set.add` semantics on an insertion-ordered duplicate-free list. -/
def addIfAbsent (l : List α) (x : α) : List α :=
  if l.contains x then l else l ++ [x]

end AssocHelpers

/-- `ConnectionGraph` (`calculations.ts` lines 42-45): adjacency from block id
to the blocks it signal-feeds, and the id → block map. -/
structure ConnectionGraph where
  adjacency : List (Nat × List (Nat × Connection))
  blocks : List (Nat × Block)
deriving Repr

/-- `isValidConnection` (lines 50-55): a signal edge has one `right` and one
`left` end. -/
def isValidConnection (conn : Connection) : Bool :=
  (conn.fromSide == Side.right && conn.toSide == Side.left) ||
  (conn.fromSide == Side.left && conn.toSide == Side.right)

/-- One `validConnections.forEach` step of `buildGraph` (lines 78-91): push the
edge from the output end to the input end, if the source block exists. -/
def buildGraphStep (adj : List (Nat × List (Nat × Connection))) (conn : Connection) :
    List (Nat × List (Nat × Connection)) :=
  if conn.fromSide == Side.right && conn.toSide == Side.left then
    match assocGet adj conn.fromBlockId with
    | some l => assocSet adj conn.fromBlockId (l ++ [(conn.toBlockId, conn)])
    | none => adj
  else if conn.fromSide == Side.left && conn.toSide == Side.right then
    match assocGet adj conn.toBlockId with
    | some l => assocSet adj conn.toBlockId (l ++ [(conn.fromBlockId, conn)])
    | none => adj
  else adj

/-- `buildGraph` (lines 60-94). -/
def buildGraph (blocks : List Block) (connections : List Connection) : ConnectionGraph :=
  let blockMap := blocks.foldl (fun m b => assocSet m b.id b) []
  let adjInit := blocks.foldl (fun m b => assocSet m b.id ([] : List (Nat × Connection))) []
  let validConnections := connections.filter (fun c => isValidConnection c)
  { adjacency := validConnections.foldl buildGraphStep adjInit
    blocks := blockMap }

/-- Targets of the signal edges leaving `id` (`graph.adjacency.get(id) || []`,
projected to the `toId` field the callers read). -/
def adjTargets (graph : ConnectionGraph) (id : Nat) : List Nat :=
  ((assocGet graph.adjacency id).getD []).map (fun e => e.1)

/-- `calculateParallelReliability` (lines 99-111). -/
def calculateParallelReliability (blockIds : List Nat) (graph : ConnectionGraph) : ℚ :=
  let unreliability := blockIds.foldl
    (fun acc id =>
      match assocGet graph.blocks id with
      | some block => acc * (1 - block.reliability)
      | none => acc) 1
  roundTo (1 - unreliability)

/-- One in-place array update `dp[k] = dp[k]*(1-p) + (k>0 ? dp[k-1]*p : 0)` of
`calculateExactKProbabilities` (lines 123-127). -/
def dpUpdate (p : ℚ) (k : Nat) (dp : List ℚ) : List ℚ :=
  dp.set k (dp.getD k 0 * (1 - p) + (if 0 < k then dp.getD (k - 1) 0 * p else 0))

/-- The inner loop `for (k = n; k >= 0; k--)` of `calculateExactKProbabilities`. -/
def dpDown (p : ℚ) : Nat → List ℚ → List ℚ
  | 0, dp => dpUpdate p 0 dp
  | k + 1, dp => dpDown p k (dpUpdate p (k + 1) dp)

/-- The Poisson-binomial dynamic program of `calculateExactKProbabilities`
(lines 117-130) before the final rounding pass: `dp[0] = 1`, then for each
probability `p` the downward update over `k = n … 0`.  `exactKDistribution l`
has length `l.length + 1` and `exactKDistribution l |>.getD k 0` is the exact
probability that exactly `k` of the elements succeed. -/
def exactKDistribution (probabilities : List ℚ) : List ℚ :=
  let n := probabilities.length
  probabilities.foldl (fun dp p => dpDown p n dp) ((1 : ℚ) :: List.replicate n 0)

/-- `calculateExactKProbabilities` (lines 117-131): the dynamic program
followed by `dp.map(v => roundTo(v))`. -/
def calculateExactKProbabilities (probabilities : List ℚ) : List ℚ :=
  (exactKDistribution probabilities).map roundTo

/-- `hasLeftToLeftConnection` (lines 133-145). -/
def hasLeftToLeftConnection (aId bId : Nat) (connections : List Connection) : Bool :=
  connections.any (fun c =>
    ((c.fromBlockId == aId && c.toBlockId == bId) ||
      (c.fromBlockId == bId && c.toBlockId == aId)) &&
    c.fromSide == Side.left && c.toSide == Side.left)

/-- `hasRightToRightConnection` (lines 147-159). -/
def hasRightToRightConnection (aId bId : Nat) (connections : List Connection) : Bool :=
  connections.any (fun c =>
    ((c.fromBlockId == aId && c.toBlockId == bId) ||
      (c.fromBlockId == bId && c.toBlockId == aId)) &&
    c.fromSide == Side.right && c.toSide == Side.right)

/-- The loop `for (k = minRequired; k <= n; k++) total += exactK[k] || 0` of
`calculateSystemWithReserve` (lines 671-674). -/
def sumExactFrom (l : List ℚ) (minRequired n : Nat) : ℚ :=
  (List.range' minRequired (n + 1 - minRequired)).foldl
    (fun acc k => acc + l.getD k 0) 0

/-- Result record of `calculateSystemWithReserve`. -/
structure ReserveResult where
  reliability : ℚ
  minRequired : Nat
  total : Nat
  exactKProbabilities : List ℚ
deriving Repr

/-- `calculateSystemWithReserve` (lines 649-682). -/
def calculateSystemWithReserve (mainChain reserveBlocks : List Nat)
    (graph : ConnectionGraph) : ReserveResult :=
  let allBlocks := mainChain ++ reserveBlocks
  let n := allBlocks.length
  let minRequired := mainChain.length
  let probabilities := allBlocks.filterMap (fun id => (assocGet graph.blocks id).map (fun b => b.reliability))
  let exactKProbabilities := calculateExactKProbabilities probabilities
  let totalReliability := sumExactFrom exactKProbabilities minRequired n
  { reliability := roundTo totalReliability
    minRequired := minRequired
    total := n
    exactKProbabilities := exactKProbabilities.map roundTo }

/-- `getValidInputs` (lines 687-709): sources of signal edges into `blockId`'s
input terminal, deduplicated in first-occurrence order (`[...new Set(inputs)]`). -/
def getValidInputs (blockId : Nat) (connections : List Connection) : List Nat :=
  let inputs := connections.foldl
    (fun acc conn =>
      let acc' :=
        if conn.toBlockId == blockId && conn.toSide == Side.left &&
            conn.fromSide == Side.right then
          acc ++ [conn.fromBlockId]
        else acc
      if conn.fromBlockId == blockId && conn.fromSide == Side.left &&
          conn.toSide == Side.right then
        acc' ++ [conn.toBlockId]
      else acc') []
  inputs.foldl addIfAbsent []

/-- `Math.min(...nonReserveBlocks.map(b => b.number))`: `none` models the empty
spread (`Math.min()` = `Infinity`, which no finite `number` equals). -/
def natListMin : List Nat → Option Nat
  | [] => none
  | x :: xs => some (xs.foldl Nat.min x)

/-- `isBlockConnected` (lines 714-792), the activity classifier. -/
def isBlockConnected (blockId : Nat) (blocks : List Block)
    (connections : List Connection) ( isReserve : Bool) : Bool :=
  if isReserve then true
  else
    let nonReserveBlocks := blocks.filter (fun b => !b.isReserve)
    if nonReserveBlocks.length = 1 then
      (nonReserveBlocks.headI).id == blockId
    else
      let minNumber := natListMin (nonReserveBlocks.map (fun b => b.number))
      let thisBlock := blocks.find? (fun b => b.id == blockId)
      if (match thisBlock, minNumber with
          | some b, some m => b.number == m
          | _, _ => false) then true
      else
        let validInputs := getValidInputs blockId connections
        if validInputs.length > 0 then true
        else
          let leftConnections := connections.filter (fun c =>
            ((c.fromBlockId == blockId && c.fromSide == Side.left) ||
              (c.toBlockId == blockId && c.toSide == Side.left)) &&
            c.fromSide == Side.left && c.toSide == Side.left)
          let rightConnections := connections.filter (fun c =>
            ((c.fromBlockId == blockId && c.fromSide == Side.right) ||
              (c.toBlockId == blockId && c.toSide == Side.right)) &&
            c.fromSide == Side.right && c.toSide == Side.right)
          if leftConnections.length > 0 && rightConnections.length > 0 then
            leftConnections.any (fun leftConn =>
              let neighborId :=
                if leftConn.fromBlockId == blockId then leftConn.toBlockId
                else leftConn.fromBlockId
              match blocks.find? (fun b => b.id == neighborId) with
              | some neighborBlock =>
                  if !neighborBlock.isReserve then
                    let neighborValidInputs := getValidInputs neighborId connections
                    let isFirstBlock :=
                      match minNumber with
                      | some m => neighborBlock.number == m
                      | none => false
                    isFirstBlock || neighborValidInputs.length > 0
                  else false
              | none => false)
          else false

/-- A terminal node of the reduction: `leftNode id = "L:id"` /
`rightNode id = "R:id"` (`calculations.ts` lines 202-203). -/
inductive UfNode where
  | L (id : Nat) : UfNode
  | R (id : Nat) : UfNode
deriving DecidableEq, Repr

/-- Pure reading of `find` (lines 188-195): follow parent links to the root.
The source's path compression and lazy self-initialisation only speed up later
lookups and never change which root is returned, so they are omitted.  The
fuel list (the parent list itself) dominates the link-chain length: every
followed link is a distinct non-self entry of the list. -/
def ufFindAux (parent : List (UfNode × UfNode)) :
    List (UfNode × UfNode) → UfNode → UfNode
  | [], x => x
  | _ :: fuel, x =>
      match assocGet parent x with
      | none => x
      | some p => if p == x then x else ufFindAux parent fuel p

def ufFind (parent : List (UfNode × UfNode)) (x : UfNode) : UfNode :=
  ufFindAux parent parent x

/-- `union` (lines 196-200): link the two roots when they differ. -/
def ufUnion (parent : List (UfNode × UfNode)) (a b : UfNode) :
    List (UfNode × UfNode) :=
  let ra := ufFind parent a
  let rb := ufFind parent b
  if ra == rb then parent else assocSet parent ra rb

/-- One `connections.forEach` step of the terminal merging (lines 210-236):
skip connections leaving the component, merge same-side bus ties, and merge
output with input terminals for signal edges. -/
def ufStep (component : List Nat) (parent : List (UfNode × UfNode))
    (conn : Connection) : List (UfNode × UfNode) :=
  if !(component.contains conn.fromBlockId) || !(component.contains conn.toBlockId) then
    parent
  else if conn.fromSide == Side.left && conn.toSide == Side.left then
    ufUnion parent (UfNode.L conn.fromBlockId) (UfNode.L conn.toBlockId)
  else if conn.fromSide == Side.right && conn.toSide == Side.right then
    ufUnion parent (UfNode.R conn.fromBlockId) (UfNode.R conn.toBlockId)
  else if conn.fromSide == Side.right && conn.toSide == Side.left then
    ufUnion parent (UfNode.R conn.fromBlockId) (UfNode.L conn.toBlockId)
  else
    -- remaining case: fromSide = left, toSide = right
    ufUnion parent (UfNode.R conn.toBlockId) (UfNode.L conn.fromBlockId)

def ufBuild (component : List Nat) (connections : List Connection) :
    List (UfNode × UfNode) :=
  connections.foldl (ufStep component) []

/-- `SpEdge` (lines 174-180).  `from`/`to` are Lean keywords, hence
`fromNode`/`toNode`. -/
structure SpEdge where
  fromNode : UfNode
  toNode : UfNode
  reliability : ℚ
  generalExpr : String
  valueExpr : String
deriving DecidableEq, Repr

instance : Inhabited SpEdge := ⟨⟨UfNode.L 0, UfNode.L 0, 0, "", ""⟩⟩

/-- The initial reduced edges, one per block of the component, dropping those
whose two terminals were merged (lines 238-249). -/
def mkSpEdges (component : List Nat) (graph : ConnectionGraph)
    (parent : List (UfNode × UfNode)) : List SpEdge :=
  (component.map (fun id =>
    -- `graph.blocks.get(id)!`: call sites only pass ids present in the map.
    let block := (assocGet graph.blocks id).getD default
    { fromNode := ufFind parent (UfNode.L id)
      toNode := ufFind parent (UfNode.R id)
      reliability := roundTo block.reliability
      generalExpr := "p<sub>" ++ toString block.number ++ "</sub>"
      valueExpr := formatTo block.reliability : SpEdge })).filter
    (fun e => !(e.fromNode == e.toNode))

/-- One `edges.forEach` step of the bucket construction of `reduceParallel`
(lines 254-260): append the edge to the bucket keyed by its `(from, to)` pair
(a string key `from->to` in the source, injective on the node renderings). -/
def bucketStep (m : List ((UfNode × UfNode) × List SpEdge)) (e : SpEdge) :
    List ((UfNode × UfNode) × List SpEdge) :=
  assocSet m (e.fromNode, e.toNode)
    (((assocGet m (e.fromNode, e.toNode)).getD []) ++ [e])

def bucketsOf (edges : List SpEdge) : List ((UfNode × UfNode) × List SpEdge) :=
  edges.foldl bucketStep []

/-- The per-bucket emission of `reduceParallel` (lines 264-291): a singleton
bucket is passed through, a larger one collapses to its independent-OR merge. -/
def bucketEmit (b : (UfNode × UfNode) × List SpEdge) : List SpEdge :=
  match b.2 with
  | [e] => [e]
  | list =>
      let unreliability := list.foldl (fun acc e => acc * (1 - e.reliability)) 1
      let reliability := roundTo (1 - unreliability)
      let generalExpr := "[1 - " ++
        String.intercalate (" × ")
          (list.map (fun e => "(1 - " ++ e.generalExpr ++ ")")) ++ "]"
      let valueExpr := "[1 - " ++
        String.intercalate (" × ")
          (list.map (fun e => "(1 - " ++ e.valueExpr ++ ")")) ++ "]"
      [{ fromNode := (list.headI).fromNode
         toNode := (list.headI).toNode
         reliability := reliability
         generalExpr := generalExpr
         valueExpr := valueExpr }]

/-- `reduceParallel` (lines 251-294), emitting buckets in first-occurrence
key order. -/
def reduceParallel (edges : List SpEdge) : List SpEdge × Bool :=
  let buckets := bucketsOf edges
  (buckets.flatMap bucketEmit, buckets.any (fun b => b.2.length != 1))

/-- Edge indices whose head is `n`, in edge order (the `inMap` lists of
lines 299-314; indices stand for the source's object identity). -/
def inIndices (edges : List SpEdge) (n : UfNode) : List Nat :=
  (edges.enum.filter (fun ie => ie.2.toNode == n)).map (fun ie => ie.1)

def outIndices (edges : List SpEdge) (n : UfNode) : List Nat :=
  (edges.enum.filter (fun ie => ie.2.fromNode == n)).map (fun ie => ie.1)

/-- The `for (const node of nodes)` scan of `reduceSeries` (lines 325-335):
the first interior node (insertion order) with exactly one incoming and one
outgoing edge, those two edges being distinct objects. -/
def seriesPick (edges : List SpEdge) : Option (Nat × Nat) :=
  let nodes := edges.foldl
    (fun ns e => addIfAbsent (addIfAbsent ns e.fromNode) e.toNode) []
  let sourceNodes := nodes.filter (fun n => (inIndices edges n).length = 0)
  let sinkNodes := nodes.filter (fun n => (outIndices edges n).length = 0)
  nodes.findSome? (fun n =>
    if sourceNodes.contains n || sinkNodes.contains n then none
    else
      match inIndices edges n, outIndices edges n with
      | [i], [j] => if i == j then none else some (i, j)
      | _, _ => none)

/-- `reduceSeries` (lines 296-349): collapse the picked in/out edge pair into
their independent-AND product. -/
def reduceSeries (edges : List SpEdge) : List SpEdge × Bool :=
  match seriesPick edges with
  | none => (edges, false)
  | some (i, j) =>
      let inEdge := edges.getD i default
      let outEdge := edges.getD j default
      let nextEdges :=
        (edges.enum.filter (fun ie => ie.1 != i && ie.1 != j)).map (fun ie => ie.2) ++
        [{ fromNode := inEdge.fromNode
           toNode := outEdge.toNode
           reliability := roundTo (inEdge.reliability * outEdge.reliability)
           generalExpr := inEdge.generalExpr ++ " × " ++ outEdge.generalExpr
           valueExpr := inEdge.valueExpr ++ " × " ++ outEdge.valueExpr : SpEdge }]
      (nextEdges, true)

/-- The `while (changed && safety < 200)` loop (lines 351-366).  Each call of
the second component is the number of executed iterations (`safety`). -/
def spLoopGo : Nat → List SpEdge → Nat → List SpEdge × Nat
  | 0, edges, safety => (edges, safety)
  | fuel + 1, edges, safety =>
      match reduceParallel edges with
      | (pEdges, pChanged) =>
          match reduceSeries pEdges with
          | (sEdges, sChanged) =>
              if pChanged || sChanged then spLoopGo fuel sEdges (safety + 1)
              else (sEdges, safety + 1)

/-- `mode` of a component analysis (line 169). -/
inductive AnalyzeMode where
  | groups : AnalyzeMode
  | parallelPaths : AnalyzeMode
  | reducedSp : AnalyzeMode
deriving DecidableEq, Repr

/-- Result record of `analyzeComponent` (lines 165-172). -/
structure AnalyzeResult where
  groups : List (List Nat)
  orderedGroups : List (List Nat)
  reliability : ℚ
  mode : AnalyzeMode
  parallelPaths : List (List Nat)
  reducedGeneral : Option String
  reducedValues : Option String
deriving DecidableEq, Repr

/-- Attempt 0 of `analyzeComponent` (lines 182-380): the series-parallel
reduction.  `some` exactly when the loop leaves a single reduced edge. -/
def spReduceComponent (component : List Nat) (graph : ConnectionGraph)
    (connections : List Connection) : Option AnalyzeResult :=
  let parent := ufBuild component connections
  let spEdges := mkSpEdges component graph parent
  if spEdges.length > 0 then
    match (spLoopGo 200 spEdges 0).1 with
    | [e] => some
        { groups := []
          orderedGroups := []
          reliability := roundTo e.reliability
          mode := AnalyzeMode.reducedSp
          parallelPaths := []
          reducedGeneral := some e.generalExpr
          reducedValues := some e.valueExpr }
    | _ => none
  else none

/-- `isSameSideConnection` (lines 382-387). -/
def isSameSideConnection (conn : Connection) (side : Side) : Bool :=
  conn.fromSide == side && conn.toSide == side

/-- The bus adjacency built inside `areBlocksBusConnected` (lines 395-404):
same-side connections between members of `ids`, as insertion-ordered sets. -/
def busAdj (ids : List Nat) (connections : List Connection) (side : Side) :
    List (Nat × List Nat) :=
  let init := ids.foldl (fun m id => assocSet m id ([] : List Nat)) []
  connections.foldl
    (fun adj conn =>
      if !(isSameSideConnection conn side) then adj
      else if !(ids.contains conn.fromBlockId) || !(ids.contains conn.toBlockId) then adj
      else
        let adj1 :=
          match assocGet adj conn.fromBlockId with
          | some s => assocSet adj conn.fromBlockId (addIfAbsent s conn.toBlockId)
          | none => adj
        match assocGet adj1 conn.toBlockId with
        | some s => assocSet adj1 conn.toBlockId (addIfAbsent s conn.fromBlockId)
        | none => adj1)
    init

/-- The stack traversal of `areBlocksBusConnected` (lines 406-415).  The
result is the set of reachable ids; only its size is consumed, so popping from
the front instead of the back of the stack is observationally identical.  The
fuel dominates the iteration count: at most `|ids|` pops mark a new node, each
pushing at most `|ids|` neighbours (adjacency lists are duplicate-free subsets
of `ids`), every other pop consumes a stack entry. -/
def busTraverse (adj : List (Nat × List Nat)) :
    Nat → List Nat → List Nat → List Nat
  | 0, visited, _ => visited
  | fuel + 1, visited, stack =>
      match stack with
      | [] => visited
      | cur :: rest =>
          if visited.contains cur then busTraverse adj fuel visited rest
          else
            let visited' := visited ++ [cur]
            let pushes := ((assocGet adj cur).getD []).filter
              (fun n => !(visited'.contains n))
            busTraverse adj fuel visited' (pushes ++ rest)

/-- `areBlocksBusConnected` (lines 389-418). -/
def areBlocksBusConnected (ids : List Nat) (connections : List Connection)
    (side : Side) : Bool :=
  if ids.length ≤ 1 then true
  else
    let adj := busAdj ids connections side
    let visited := busTraverse adj (1 + ids.length + ids.length * ids.length)
      [] [ids.headI]
    visited.length == ids.length

/-- The in/out signal degrees within the component (lines 422-437): pairs
`(inDegree, outDegree)` as association lists over the component's ids. -/
def componentDegrees (component : List Nat) (graph : ConnectionGraph) :
    List (Nat × Nat) × List (Nat × Nat) :=
  let init := component.foldl (fun m id => assocSet m id 0) []
  component.foldl
    (fun st fromId =>
      (adjTargets graph fromId).foldl
        (fun st toId =>
          match st with
          | (ind, outd) =>
              if component.contains toId then
                (assocSet ind toId ((assocGet ind toId).getD 0 + 1),
                 assocSet outd fromId ((assocGet outd fromId).getD 0 + 1))
              else (ind, outd))
        st)
    (init, init)

/-- `dfsPath` (lines 450-464): enumerate the simple signal paths from
`current` to `target` inside the component, in discovery order.  The path
grows by one component member per level, so `component.length + 2` fuel
dominates the recursion depth. -/
def dfsPathAux (graph : ConnectionGraph) (component : List Nat) (target : Nat) :
    Nat → Nat → List Nat → List (List Nat)
  | 0, _, _ => []
  | fuel + 1, current, path =>
      if path.contains current then []
      else
        let nextPath := path ++ [current]
        if current == target then [nextPath]
        else
          (adjTargets graph current).foldl
            (fun acc toId =>
              if component.contains toId then
                acc ++ dfsPathAux graph component target fuel toId nextPath
              else acc)
            []

/-- Attempt 1 of `analyzeComponent` (lines 420-514): the bus-to-bus disjoint
parallel-path decomposition.  `some` exactly when both buses exist, at least
two distinct simple paths are found and the paths are pairwise block-disjoint. -/
def parallelPathsSection (component : List Nat) (graph : ConnectionGraph)
    (connections : List Connection) : Option AnalyzeResult :=
  let degs := componentDegrees component graph
  let entryBlocks := component.filter (fun id => (assocGet degs.1 id).getD 0 == 0)
  let exitBlocks := component.filter (fun id => (assocGet degs.2 id).getD 0 == 0)
  let hasEntryBus := entryBlocks.length > 1 &&
    areBlocksBusConnected entryBlocks connections Side.left
  let hasExitBus := exitBlocks.length > 1 &&
    areBlocksBusConnected exitBlocks connections Side.right
  if hasEntryBus && hasExitBus then
    let paths := entryBlocks.foldl
      (fun acc startId =>
        exitBlocks.foldl
          (fun acc endId =>
            acc ++ dfsPathAux graph component endId (component.length + 2) startId [])
          acc)
      []
    -- `uniquePathMap` keyed by `p.join("->")`, injective on id lists, so the
    -- dedup keeps exactly the first occurrence of each path.
    let uniquePaths := paths.foldl
      (fun acc p => if acc.contains p then acc else acc ++ [p]) []
    let disjoint := uniquePaths.enum.all (fun ip =>
      uniquePaths.enum.all (fun jq =>
        if ip.1 ≥ jq.1 then true
        else ip.2.all (fun id => !(jq.2.contains id))))
    if uniquePaths.length ≥ 2 && disjoint then
      let branchReliabilities := uniquePaths.map (fun path =>
        roundTo (path.foldl
          (fun acc id =>
            acc * (((assocGet graph.blocks id).map (fun b => b.reliability)).getD 0))
          1))
      let reliability := roundTo
        (1 - branchReliabilities.foldl (fun acc r => acc * (1 - r)) 1)
      some
        { groups := uniquePaths
          orderedGroups := uniquePaths
          reliability := reliability
          mode := AnalyzeMode.parallelPaths
          parallelPaths := uniquePaths
          reducedGeneral := none
          reducedValues := none }
    else none
  else none

/-- The pairwise parallel adjacency of the legacy reducer (lines 518-534):
two blocks are neighbours when they share both a left-left and a right-right
bus tie. -/
def parallelAdjBuild (component : List Nat) (connections : List Connection) :
    List (Nat × List Nat) :=
  let init := component.foldl (fun m id => assocSet m id ([] : List Nat)) []
  component.enum.foldl
    (fun adj ia =>
      component.enum.foldl
        (fun adj jb =>
          if ia.1 < jb.1 then
            if hasLeftToLeftConnection ia.2 jb.2 connections &&
                hasRightToRightConnection ia.2 jb.2 connections then
              let adj1 :=
                match assocGet adj ia.2 with
                | some s => assocSet adj ia.2 (addIfAbsent s jb.2)
                | none => adj
              match assocGet adj1 jb.2 with
              | some s => assocSet adj1 jb.2 (addIfAbsent s ia.2)
              | none => adj1
            else adj
          else adj)
        adj)
    init

/-- `dfsGroup` (lines 539-551), threading the shared `visited` set and the
group being collected.  Depth is bounded by the component size. -/
def dfsGroup (parallelAdj : List (Nat × List Nat)) :
    Nat → List Nat × List Nat → Nat → List Nat × List Nat
  | 0, st, _ => st
  | fuel + 1, (visited, group), startId =>
      if visited.contains startId then (visited, group)
      else
        ((assocGet parallelAdj startId).getD []).foldl
          (fun st nextId =>
            match st with
            | (v, g) =>
                if v.contains nextId then (v, g)
                else dfsGroup parallelAdj fuel (v, g) nextId)
          (visited ++ [startId], group ++ [startId])

/-- `graph.blocks.get(id)?.number || 0`. -/
def blockNumberKey (graph : ConnectionGraph) (id : Nat) : Nat :=
  ((assocGet graph.blocks id).map (fun b => b.number)).getD 0

/-- Stable ascending insertion by key, the behaviour of V8's stable
`Array.sort` with comparator `keyA - keyB`. -/
def stableInsertByKey {α : Type} (key : α → Nat) (x : α) : List α → List α
  | [] => [x]
  | y :: ys => if key y ≤ key x then y :: stableInsertByKey key x ys else x :: y :: ys

def stableSortByKey {α : Type} (key : α → Nat) (l : List α) : List α :=
  l.foldl (fun acc x => stableInsertByKey key x acc) []

/-- The group discovery loop (lines 536-564): successive `dfsGroup` runs over
unvisited component members, each group sorted by block number. -/
def legacyGroups (component : List Nat) (graph : ConnectionGraph)
    (parallelAdj : List (Nat × List Nat)) : List (List Nat) :=
  (component.foldl
    (fun st id =>
      match st with
      | (visited, groups) =>
          if visited.contains id then (visited, groups)
          else
            match dfsGroup parallelAdj (component.length + 1) (visited, []) id with
            | (visited2, group) =>
                (visited2, groups ++ [stableSortByKey (blockNumberKey graph) group]))
    (([] : List Nat), ([] : List (List Nat)))).2

/-- `groupIndexByBlockId` (lines 567-570). -/
def groupIndexMap (groups : List (List Nat)) : List (Nat × Nat) :=
  groups.enum.foldl
    (fun m ig => ig.2.foldl (fun m blockId => assocSet m blockId ig.1) m) []

/-- The inter-group signal edges and indegrees (lines 572-595). -/
def groupEdgesBuild (component : List Nat) (graph : ConnectionGraph)
    (groups : List (List Nat)) :
    List (Nat × List Nat) × List (Nat × Nat) :=
  let gidx := groupIndexMap groups
  let init1 := (List.range groups.length).foldl
    (fun m i => assocSet m i ([] : List Nat)) []
  let init2 := (List.range groups.length).foldl (fun m i => assocSet m i 0) []
  component.foldl
    (fun st fromId =>
      match assocGet gidx fromId with
      | none => st
      | some fromGroup =>
          (adjTargets graph fromId).foldl
            (fun st toId =>
              match st with
              | (edges, indeg) =>
                  if !(component.contains toId) then (edges, indeg)
                  else
                    match assocGet gidx toId with
                    | none => (edges, indeg)
                    | some toGroup =>
                        if toGroup == fromGroup then (edges, indeg)
                        else
                          let cur := (assocGet edges fromGroup).getD []
                          if cur.contains toGroup then (edges, indeg)
                          else
                            (assocSet edges fromGroup (cur ++ [toGroup]),
                             assocSet indeg toGroup
                               ((assocGet indeg toGroup).getD 0 + 1)))
            st)
    (init1, init2)

/-- The Kahn queue loop of the topological order (lines 597-614).  A group
index is enqueued exactly once (when its indegree reaches zero), so the fuel
`groups.length + 1` dominates the pop count and the `Nat` subtraction in the
decrement never truncates. -/
def topoLoop (edges : List (Nat × List Nat)) :
    Nat → List Nat → List (Nat × Nat) → List Nat → List Nat
  | 0, _, _, ordered => ordered
  | fuel + 1, queue, indeg, ordered =>
      match queue with
      | [] => ordered
      | current :: rest =>
          let nextSet := (assocGet edges current).getD []
          match nextSet.foldl
            (fun st next =>
              match st with
              | (ind, q) =>
                  let nextDeg := (assocGet ind next).getD 0 - 1
                  (assocSet ind next nextDeg,
                   if nextDeg == 0 then q ++ [next] else q))
            (indeg, rest) with
          | (ind2, queue2) => topoLoop edges fuel queue2 ind2 (ordered ++ [current])

/-- Attempt 2 of `analyzeComponent` (lines 516-643): the legacy pairwise
group reducer.  Always produces a result (`mode = "groups"`). -/
def legacyGroupsComponent (component : List Nat) (graph : ConnectionGraph)
    (connections : List Connection) : AnalyzeResult :=
  let parallelAdj := parallelAdjBuild component connections
  let groups := legacyGroups component graph parallelAdj
  let ge := groupEdgesBuild component graph groups
  let queueInit := (List.range groups.length).filter
    (fun i => (assocGet ge.2 i).getD 0 == 0)
  let orderedIdx := topoLoop ge.1 (groups.length + 1) queueInit ge.2 []
  let orderedGroups :=
    if orderedIdx.length = groups.length then
      orderedIdx.map (fun idx => groups.getD idx [])
    else
      stableSortByKey (fun g => blockNumberKey graph g.headI) groups
  let reliability := orderedGroups.foldl
    (fun acc group =>
      match group with
      | [single] =>
          acc * (((assocGet graph.blocks single).map (fun b => b.reliability)).getD 0)
      | _ => acc * calculateParallelReliability group graph)
    1
  { groups := groups
    orderedGroups := orderedGroups
    reliability := roundTo reliability
    mode := AnalyzeMode.groups
    parallelPaths := []
    reducedGeneral := none
    reducedValues := none }

/-- `analyzeComponent` (lines 161-644): the series-parallel reduction, then
the disjoint parallel-path fallback, then the legacy group reducer. -/
def analyzeComponent (component : List Nat) (graph : ConnectionGraph)
    (connections : List Connection) : AnalyzeResult :=
  match spReduceComponent component graph connections with
  | some r => r
  | none =>
      match parallelPathsSection component graph connections with
      | some r => r
      | none => legacyGroupsComponent component graph connections

/-- The weak-connectivity `dfs` shared by `generateReliabilityFormula`
(lines 881-905) and `calculateSystemReliability` (lines 1066-1091): traverse
*all* connections between non-reserve blocks present in the graph, threading
the shared `visited` set and the component being collected.  Each level marks
a new block, so `graph.blocks.length + 1` fuel dominates the depth. -/
def dfsComp (graph : ConnectionGraph) (connections : List Connection) :
    Nat → List Nat × List Nat → Nat → List Nat × List Nat
  | 0, st, _ => st
  | fuel + 1, (visited, comp), blockId =>
      if visited.contains blockId then (visited, comp)
      else
        match assocGet graph.blocks blockId with
        | none => (visited, comp)
        | some block =>
            if block.isReserve then (visited, comp)
            else
              connections.foldl
                (fun st conn =>
                  match st with
                  | (v, c) =>
                      let neighborId : Option Nat :=
                        if conn.fromBlockId == blockId then some conn.toBlockId
                        else if conn.toBlockId == blockId then some conn.fromBlockId
                        else none
                      match neighborId with
                      | none => (v, c)
                      | some nId =>
                          if v.contains nId then (v, c)
                          else
                            match assocGet graph.blocks nId with
                            | none => (v, c)
                            | some neighborBlock =>
                                if neighborBlock.isReserve then (v, c)
                                else dfsComp graph connections fuel (v, c) nId)
                (visited ++ [blockId], comp ++ [blockId])

/-- The component collection loops (lines 907-915 and 1094-1102): one `dfs`
run per unvisited seed block, keeping the non-empty components in seed order. -/
def collectComponents (mainBlocks : List Block) (graph : ConnectionGraph)
    (connections : List Connection) : List (List Nat) :=
  (mainBlocks.foldl
    (fun st block =>
      match st with
      | (visited, comps) =>
          if visited.contains block.id then (visited, comps)
          else
            match dfsComp graph connections (graph.blocks.length + 1)
                (visited, []) block.id with
            | (visited2, comp) =>
                if comp.length > 0 then (visited2, comps ++ [comp])
                else (visited2, comps))
    (([] : List Nat), ([] : List (List Nat)))).2

/-- One entry of `details.chains` (lines 1016-1021). -/
structure ChainDetail where
  blocks : List Nat
  reliability : ℚ
  reserves : List Nat
  withReserveReliability : ℚ
deriving DecidableEq, Repr

/-- One entry of `details.parallelGroups` (lines 1023-1026). -/
structure GroupDetail where
  blocks : List Nat
  reliability : ℚ
deriving DecidableEq, Repr

structure SystemDetails where
  chains : List ChainDetail
  parallelGroups : List GroupDetail
deriving DecidableEq, Repr

/-- Return record of `calculateSystemReliability` (lines 1014-1027). -/
structure SystemResult where
  systemReliability : ℚ
  details : SystemDetails
deriving DecidableEq, Repr

/-- The activity filter of `calculateSystemReliability` (lines 1037-1039):
`isBlockConnected(b.id, blocks, connections, b.isReserve || false)`. -/
def connectedBlocksOf (blocks : List Block) (connections : List Connection) :
    List Block :=
  blocks.filter (fun b => isBlockConnected b.id blocks connections b.isReserve)

/-- The connected reserve blocks (line 1049). -/
def connectedReserveBlocks (blocks : List Block) (connections : List Connection) :
    List Block :=
  (connectedBlocksOf blocks connections).filter (fun b => b.isReserve == true)

/-- The connected main (non-reserve) blocks (line 1050). -/
def connectedMainBlocks (blocks : List Block) (connections : List Connection) :
    List Block :=
  (connectedBlocksOf blocks connections).filter (fun b => !b.isReserve)

/-- `calculateSystemReliability` (lines 1011-1174). -/
def calculateSystemReliability (blocks : List Block)
    (connections : List Connection) : SystemResult :=
  if blocks.length = 0 then ⟨0, ⟨[], []⟩⟩
  else
    let connectedBlocks := connectedBlocksOf blocks connections
    if connectedBlocks.length = 0 then ⟨0, ⟨[], []⟩⟩
    else
      let reserveBlocks := connectedReserveBlocks blocks connections
      let mainBlocks := connectedMainBlocks blocks connections
      if mainBlocks.length = 0 then ⟨0, ⟨[], []⟩⟩
      else
        let graph := buildGraph blocks connections
        let components := collectComponents mainBlocks graph connections
        let componentAnalyses := components.map
          (fun component => analyzeComponent component graph connections)
        let componentReliabilities := componentAnalyses.map (fun a => a.reliability)
        let systemReliability :=
          if reserveBlocks.length > 0 then
            roundTo (calculateSystemWithReserve (mainBlocks.map (fun b => b.id))
              (reserveBlocks.map (fun b => b.id)) graph).reliability
          else if componentReliabilities.length > 0 then
            if components.length = 1 then roundTo componentReliabilities.headI
            else roundTo (componentReliabilities.foldl (fun acc r => acc * r) 1)
          else 0
        let chainDetails := components.enum.map (fun ic =>
          let chainReliability := componentReliabilities.getD ic.1 0
          let reserves := reserveBlocks.map (fun b => b.id)
          -- `withReserve.reliability` of lines 1138-1146
          let withReserve :=
            if reserves.length > 0 then
              (calculateSystemWithReserve ic.2 reserves graph).reliability
            else chainReliability
          { blocks := ic.2
            reliability := roundTo chainReliability
            reserves := reserves
            withReserveReliability := roundTo withReserve : ChainDetail })
        ⟨roundTo systemReliability,
         ⟨chainDetails,
          componentAnalyses.flatMap (fun analysis =>
            if analysis.mode == AnalyzeMode.parallelPaths then []
            else
              (analysis.groups.filter (fun group => group.length > 1)).map
                (fun group =>
                  ⟨group, roundTo (calculateParallelReliability group graph)⟩))⟩⟩

/-- Return record of `generateReliabilityFormula`. -/
structure FormulaResult where
  general : String
  withValues : String
deriving DecidableEq, Repr

/-- `generateReliabilityFormula` (lines 797-1006). -/
def generateReliabilityFormula (blocks : List Block)
    (connections : List Connection) : FormulaResult :=
  if blocks.length = 0 then ⟨"G = 0", "G = 0"⟩
  else
    let mainBlocks := blocks.filter (fun b => !b.isReserve)
    let reserveBlocks := blocks.filter (fun b => b.isReserve == true)
    if mainBlocks.length = 0 then ⟨"G = 0", "G = 0"⟩
    else
      let graph := buildGraph blocks connections
      if reserveBlocks.length > 0 then
        let mainIds := mainBlocks.map (fun b => b.id)
        let reserveIds := reserveBlocks.map (fun b => b.id)
        let reserveResult := calculateSystemWithReserve mainIds reserveIds graph
        let minRequired := reserveResult.minRequired
        let total := reserveResult.total
        let exactKProbabilities := reserveResult.exactKProbabilities
        let kValues := List.range' minRequired (total + 1 - minRequired)
        let pTerm := fun (k : Nat) =>
          "P<sub>" ++ toString k ++ "," ++ toString total ++ "</sub>"
        let general := "G<sub>np</sub> = " ++
          String.intercalate (" + ") (kValues.map pTerm)
        let probs := (mainBlocks ++ reserveBlocks).map (fun b => b.reliability)
        let allEqual := probs.all
          (fun p => |p - probs.headI| < 1 / 1000000000000)
        if allEqual then
          let p := probs.headI
          let q := 1 - p
          let expandedLines := String.intercalate ("<br/>")
            (kValues.map (fun k =>
              let value := bernoulliProbability total k p
              pTerm k ++ " = C<sub>" ++ toString total ++ "</sub><sup>" ++
                toString k ++ "</sup> × " ++ formatTo p ++ "<sup>" ++
                toString k ++ "</sup> × " ++ formatTo q ++ "<sup>" ++
                toString (total - k) ++ "</sup> = " ++ formatTo value))
          let sumLine := "G<sub>np</sub> = " ++
            String.intercalate (" + ") (kValues.map pTerm) ++ " = " ++
            String.intercalate (" + ")
              (kValues.map (fun k => formatTo (exactKProbabilities.getD k 0))) ++
            " = " ++ formatTo reserveResult.reliability
          ⟨general, expandedLines ++ "<br/>" ++ sumLine⟩
        else
          let lines := String.intercalate ("<br/>")
            (kValues.map (fun k =>
              pTerm k ++ " = " ++ formatTo (exactKProbabilities.getD k 0)))
          let sumLine := "G<sub>np</sub> = " ++
            String.intercalate (" + ") (kValues.map pTerm) ++ " = " ++
            String.intercalate (" + ")
              (kValues.map (fun k => formatTo (exactKProbabilities.getD k 0))) ++
            " = " ++ formatTo reserveResult.reliability
          ⟨general, lines ++ "<br/>" ++ sumLine⟩
      else
        let components := collectComponents mainBlocks graph connections
        if components.length > 0 then
          let componentFormulas := components.map (fun component =>
            let analysis := analyzeComponent component graph connections
            if analysis.mode == AnalyzeMode.reducedSp then
              ((analysis.reducedGeneral).getD "0", (analysis.reducedValues).getD "0")
            else if analysis.mode == AnalyzeMode.parallelPaths then
              let branchGeneralTerms := String.intercalate (" × ")
                (analysis.parallelPaths.map (fun path =>
                  "(1 - (" ++ String.intercalate (" × ")
                    (path.map (fun id =>
                      let block := (assocGet graph.blocks id).getD default
                      "p<sub>" ++ toString block.number ++ "</sub>")) ++ "))"))
              let branchValueTerms := String.intercalate (" × ")
                (analysis.parallelPaths.map (fun path =>
                  "(1 - (" ++ String.intercalate (" × ")
                    (path.map (fun id =>
                      let block := (assocGet graph.blocks id).getD default
                      formatTo block.reliability)) ++ "))"))
              ("[1 - " ++ branchGeneralTerms ++ "]",
               "[1 - " ++ branchValueTerms ++ "]")
            else
              let generalPart := String.intercalate (" × ")
                (analysis.orderedGroups.map (fun group =>
                  match group with
                  | [one] =>
                      let block := (assocGet graph.blocks one).getD default
                      "p<sub>" ++ toString block.number ++ "</sub>"
                  | _ =>
                      "[1 - " ++ String.intercalate (" × ")
                        (group.map (fun id =>
                          let block := (assocGet graph.blocks id).getD default
                          "(1 - p<sub>" ++ toString block.number ++ "</sub>)")) ++ "]"))
              let valuesPart := String.intercalate (" × ")
                (analysis.orderedGroups.map (fun group =>
                  match group with
                  | [one] =>
                      let block := (assocGet graph.blocks one).getD default
                      formatTo block.reliability
                  | _ =>
                      "[1 - " ++ String.intercalate (" × ")
                        (group.map (fun id =>
                          let block := (assocGet graph.blocks id).getD default
                          "(1 - " ++ formatTo block.reliability ++ ")")) ++ "]"))
              (generalPart, valuesPart))
          ⟨"G = " ++ String.intercalate (" × ") (componentFormulas.map (fun f => f.1)),
           "G = " ++ String.intercalate (" × ") (componentFormulas.map (fun f => f.2))⟩
        else ⟨"G = 0", "G = 0"⟩

/-! ## Shared proof helpers -/

/-- Evaluation rule for `roundTo` at a concrete value: if the scaled argument
lies in `[k, k+1)` the rounded value is `k/10⁶`. -/
theorem roundTo_eval (x : ℚ) (k : ℤ)
    (h1 : (k : ℚ) ≤ (x + epsJS) * 1000000 + 1 / 2)
    (h2 : (x + epsJS) * 1000000 + 1 / 2 < k + 1) :
    roundTo x = (k : ℚ) / 1000000 := by
  rw [roundTo_eq_floor, Int.floor_eq_iff.mpr ⟨h1, h2⟩]

/-- Block literal used by the concrete examples. -/
def mkB (i n : Nat) (r : ℚ) (res : Bool := false) : Block := ⟨i, n, r, res⟩

/-- Connection literal used by the concrete examples. -/
def mkC (i f t : Nat) (fs ts : Side) : Connection := ⟨i, f, t, fs, ts⟩

section AssocLemmas

variable {α β : Type} [BEq α] [LawfulBEq α]

omit [LawfulBEq α] in
theorem assocGet_cons (p : α × β) (rest : List (α × β)) (k : α) :
    assocGet (p :: rest) k = if p.1 == k then some p.2 else assocGet rest k := by
  by_cases h : p.1 == k
  · simp [assocGet, List.find?_cons, h]
  · simp only [Bool.not_eq_true] at h
    simp [assocGet, List.find?_cons, h]

omit [LawfulBEq α] in
theorem assocSet_of_get_none {m : List (α × β)} {k : α} (v : β)
    (h : assocGet m k = none) : assocSet m k v = m ++ [(k, v)] := by
  induction m with
  | nil => rfl
  | cons p rest ih =>
      rw [assocGet_cons] at h
      by_cases hk : p.1 == k
      · rw [if_pos hk] at h; exact absurd h (by simp)
      · rw [if_neg hk] at h
        simp only [Bool.not_eq_true] at hk
        simp [assocSet, hk, ih h]

theorem mem_assocSet_self (m : List (α × β)) (k : α) (v : β) :
    (k, v) ∈ assocSet m k v := by
  induction m with
  | nil => simp [assocSet]
  | cons p rest ih =>
      by_cases hk : p.1 == k
      · have : p.1 = k := eq_of_beq hk
        simp [assocSet, hk, ← this]
      · simp only [Bool.not_eq_true] at hk
        simp [assocSet, hk, ih]

theorem mem_of_mem_assocSet {m : List (α × β)} {k : α} {v : β} {p : α × β}
    (h : p ∈ assocSet m k v) : p = (k, v) ∨ p ∈ m := by
  induction m with
  | nil => simp [assocSet] at h; exact Or.inl h
  | cons q rest ih =>
      by_cases hk : q.1 == k
      · rw [assocSet, if_pos hk] at h
        rcases List.mem_cons.mp h with h1 | h2
        · left
          rw [h1, eq_of_beq hk]
        · right; exact List.mem_cons_of_mem _ h2
      · simp only [Bool.not_eq_true] at hk
        rw [assocSet, if_neg (by simp [hk])] at h
        rcases List.mem_cons.mp h with h1 | h2
        · right; rw [h1]; exact List.mem_cons_self _ _
        · rcases ih h2 with h3 | h3
          · exact Or.inl h3
          · exact Or.inr (List.mem_cons_of_mem _ h3)

theorem exists_mem_of_assocGet_some {m : List (α × β)} {k : α} {v : β}
    (h : assocGet m k = some v) : (k, v) ∈ m := by
  induction m with
  | nil => simp [assocGet] at h
  | cons p rest ih =>
      rw [assocGet_cons] at h
      by_cases hk : p.1 == k
      · rw [if_pos hk] at h
        have hv : p.2 = v := by simpa using h
        have hkk : p.1 = k := eq_of_beq hk
        have hp : (k, v) = p := by rw [← hkk, ← hv]
        rw [hp]
        exact List.mem_cons_self _ _
      · rw [if_neg hk] at h
        exact List.mem_cons_of_mem _ (ih h)

end AssocLemmas

/-! ## C6: the series-parallel reduction loop -/

theorem bucketsOf_append (edges : List SpEdge) (x : SpEdge) :
    bucketsOf (edges ++ [x]) = bucketStep (bucketsOf edges) x := by
  rw [bucketsOf, List.foldl_append]
  rfl

/-- Every bucket built by `reduceParallel` is non-empty. -/
theorem bucketsOf_values_nonempty (edges : List SpEdge) :
    ∀ b ∈ bucketsOf edges, b.2 ≠ [] := by
  induction edges using List.reverseRecOn with
  | nil => intro b hb; simp [bucketsOf] at hb
  | append_singleton edges x ih =>
      intro b hb
      rw [bucketsOf_append, bucketStep] at hb
      rcases mem_of_mem_assocSet hb with h | h
      · rw [h]; simp
      · exact ih b h

/-- An unchanged parallel pass emits the edge list it was given. -/
theorem reduceParallel_unchanged (edges : List SpEdge)
    (h : (reduceParallel edges).2 = false) : (reduceParallel edges).1 = edges := by
  have core : ∀ es : List SpEdge, (∀ b ∈ bucketsOf es, b.2.length = 1) →
      (bucketsOf es).flatMap bucketEmit = es := by
    intro es
    induction es using List.reverseRecOn with
    | nil => intro _; rfl
    | append_singleton es x ih =>
        intro hall
        rw [bucketsOf_append, bucketStep]
        cases hg : assocGet (bucketsOf es) (x.fromNode, x.toNode) with
        | none =>
            rw [bucketsOf_append, bucketStep, hg] at hall
            simp only [Option.getD_none, List.nil_append] at hall ⊢
            rw [assocSet_of_get_none _ hg] at hall ⊢
            rw [List.flatMap_append]
            have h1 : ∀ b ∈ bucketsOf es, b.2.length = 1 := by
              intro b hb
              exact hall b (List.mem_append_left _ hb)
            rw [ih h1]
            rfl
        | some l =>
            exfalso
            have hne : l ≠ [] :=
              bucketsOf_values_nonempty es _ (exists_mem_of_assocGet_some hg)
            have hmem : ((x.fromNode, x.toNode), l ++ [x]) ∈
                bucketsOf (es ++ [x]) := by
              rw [bucketsOf_append, bucketStep, hg]
              exact mem_assocSet_self _ _ _
            have := hall _ hmem
            simp only [List.length_append, List.length_singleton] at this
            cases l with
            | nil => exact hne rfl
            | cons a as => simp at this
  have hall : ∀ b ∈ bucketsOf edges, b.2.length = 1 := by
    have h2 : (bucketsOf edges).any (fun b => b.2.length != 1) = false := h
    intro b hb
    have := List.any_eq_false.mp h2 b hb
    simpa using this
  exact core edges hall

/-- An unchanged series pass returns the edge list it was given. -/
theorem reduceSeries_unchanged (edges : List SpEdge)
    (h : (reduceSeries edges).2 = false) : (reduceSeries edges).1 = edges := by
  rw [reduceSeries] at h ⊢
  cases hp : seriesPick edges with
  | none => rfl
  | some ij =>
      rw [hp] at h
      exact absurd h (by simp)

/-- Iteration bound and stopping condition of the `while` loop, by induction
on the remaining fuel. -/
theorem spLoopGo_bound (fuel : Nat) : ∀ (edges : List SpEdge) (safety : Nat),
    (spLoopGo fuel edges safety).2 ≤ safety + fuel ∧
    ((spLoopGo fuel edges safety).2 < safety + fuel →
      (reduceParallel (spLoopGo fuel edges safety).1).2 = false ∧
      (reduceSeries (spLoopGo fuel edges safety).1).2 = false) := by
  induction fuel with
  | zero =>
      intro edges safety
      constructor
      · simp [spLoopGo]
      · intro h
        simp [spLoopGo] at h
  | succ n ih =>
      intro edges safety
      simp only [spLoopGo]
      rcases hP : reduceParallel edges with ⟨pEdges, pChanged⟩
      rcases hS : reduceSeries pEdges with ⟨sEdges, sChanged⟩
      dsimp only
      cases hps : pChanged || sChanged with
      | true =>
          rw [if_pos rfl]
          constructor
          · have := (ih sEdges (safety + 1)).1
            omega
          · intro h
            have hlt : (spLoopGo n sEdges (safety + 1)).2 < (safety + 1) + n := by
              omega
            exact (ih sEdges (safety + 1)).2 hlt
      | false =>
          rw [if_neg (by simp)]
          obtain ⟨hp, hs⟩ := Bool.or_eq_false_iff.mp hps
          subst hp
          subst hs
          have hpe : pEdges = edges := by
            have := reduceParallel_unchanged edges (by rw [hP])
            rw [hP] at this
            exact this
          have hse : sEdges = pEdges := by
            have := reduceSeries_unchanged pEdges (by rw [hS])
            rw [hS] at this
            exact this
          constructor
          · show safety + 1 ≤ safety + (n + 1)
            omega
          · intro _
            show (reduceParallel sEdges).2 = false ∧ (reduceSeries sEdges).2 = false
            rw [hse, hpe]
            refine ⟨by rw [hP], ?_⟩
            rw [← hpe, hS]

/-- C6 (confirmed): the reduction loop of `analyzeComponent` performs at most
200 iterations, and when it stops below the cap the final edge set is a fixed
point: neither a parallel merge nor a series merge would change it.  In this
embedding every traversal is structurally recursive, so the evaluation
terminates on every block and connection collection, cyclic ones included. -/
theorem c6_loop_bound (edges : List SpEdge) :
    (spLoopGo 200 edges 0).2 ≤ 200 ∧
    ((spLoopGo 200 edges 0).2 < 200 →
      (reduceParallel (spLoopGo 200 edges 0).1).2 = false ∧
      (reduceSeries (spLoopGo 200 edges 0).1).2 = false) := by
  have h := spLoopGo_bound 200 edges 0
  simpa using h

/-! ## Grid evaluation helpers -/

/-- A value equal to an integer multiple of `10⁻⁶` is a `roundTo` fixed point. -/
theorem roundTo_of_grid (x : ℚ) (k : ℤ) (hx : x = (k : ℚ) / 1000000) :
    roundTo x = x := by
  rw [hx, roundTo_grid]

theorem roundTo_one : roundTo 1 = 1 := roundTo_of_grid 1 1000000 (by norm_num)

theorem roundTo_half : roundTo (1 / 2) = 1 / 2 :=
  roundTo_of_grid (1 / 2) 500000 (by norm_num)

/-! ## C1: the inactive-block exclusion property -/

/-- C1 system: block 2 (not minimum-numbered) has no signal input, a single
left-left bus tie to block 1 and no right-side connection, so it is inactive. -/
def c1blocks (r : ℚ) : List Block := [mkB 1 1 1, mkB 2 2 r]

def c1conns : List Connection := [mkC 1 1 2 Side.left Side.left]

/-- C1 (code bug): block 2 is classified inactive by `isBlockConnected`
(no valid signal input, no qualifying bus pairing, not minimum-numbered), yet
changing its reliability from `1/2` to `1` changes `systemReliability` from
`1/2` to `1` — the component traversal of `calculateSystemReliability` pulls
the inactive block into the cluster instead of excluding it. -/
theorem c1_inactive_block_leak :
    isBlockConnected 2 (c1blocks (1 / 2)) c1conns false = false ∧
    isBlockConnected 2 (c1blocks 1) c1conns false = false ∧
    getValidInputs 2 c1conns = [] ∧
    (calculateSystemReliability (c1blocks (1 / 2)) c1conns).systemReliability = 1 / 2 ∧
    (calculateSystemReliability (c1blocks 1) c1conns).systemReliability = 1 := by
  refine ⟨rfl, rfl, rfl, ?_, ?_⟩
  · have e : (calculateSystemReliability (c1blocks (1 / 2)) c1conns).systemReliability
        = roundTo (roundTo (roundTo (1 * 1 * (1 / 2)))) := rfl
    rw [e]
    norm_num [roundTo_half]
  · have e : (calculateSystemReliability (c1blocks 1) c1conns).systemReliability
        = roundTo (roundTo (roundTo (1 * 1 * 1))) := rfl
    rw [e]
    norm_num [roundTo_one]

/-! ## C5: the disjoint two-chain bus network -/

/-- C5 system: series chains `1 → 2` and `3 → 4 → 5`, entries `1, 3` joined by
a left-left bus tie, exits `2, 5` joined by a right-right bus tie. -/
def c5blocks (p1 p2 p3 p4 p5 : ℚ) : List Block :=
  [mkB 1 1 p1, mkB 2 2 p2, mkB 3 3 p3, mkB 4 4 p4, mkB 5 5 p5]

def c5conns : List Connection :=
  [mkC 4 1 3 Side.left Side.left, mkC 1 1 2 Side.right Side.left,
   mkC 2 3 4 Side.right Side.left, mkC 3 4 5 Side.right Side.left,
   mkC 5 2 5 Side.right Side.right]

/-! ## C2: the redundancy evaluator -/

/-- C2 counterexample input: one active main block with reliability
`0.9999995` and one reserve block with reliability `1`. -/
def c2blocks : List Block := [mkB 1 1 (9999995 / 10000000), mkB 2 2 1 true]

/-- C2 counterexample: the claim sums the exact Poisson-binomial `dp` values
and rounds once; the code rounds every `dp[k]` to 6 decimals before summing.
At this input the code returns `1.000001` while the claimed formula gives `1`. -/
theorem c2_counterexample :
    (calculateSystemReliability c2blocks []).systemReliability ≠
      roundTo (sumExactFrom (exactKDistribution [9999995 / 10000000, 1]) 1 2) := by
  have e : (calculateSystemReliability c2blocks []).systemReliability
      = roundTo (roundTo (roundTo (sumExactFrom
          ((exactKDistribution [9999995 / 10000000, 1]).map roundTo) 1 2))) := rfl
  have hdist : exactKDistribution [9999995 / 10000000, 1] =
      [0, 1 / 2000000, 1999999 / 2000000] := by
    norm_num [exactKDistribution, dpDown, dpUpdate, List.replicate, List.set]
  have eA : roundTo (1 / 2000000) = 1 / 1000000 := by
    have := roundTo_eval (1 / 2000000) 1 (by norm_num [epsJS]) (by norm_num [epsJS])
    simpa using this
  have eB : roundTo (1999999 / 2000000) = 1 := by
    have := roundTo_eval (1999999 / 2000000) 1000000 (by norm_num [epsJS])
      (by norm_num [epsJS])
    simpa using this
  have gBig : roundTo (1000001 / 1000000) = 1000001 / 1000000 :=
    roundTo_of_grid _ 1000001 (by norm_num)
  rw [e, hdist]
  norm_num [sumExactFrom, List.range', roundTo_zero, roundTo_one, eA, eB, gBig]

/-- C6 witness: the loop bound evaluated on a concrete one-edge list. -/
theorem c6_loop_bound_witness :
    (spLoopGo 200 [⟨UfNode.L 1, UfNode.R 1, 1 / 2, "", ""⟩] 0).2 ≤ 200 ∧
    ((spLoopGo 200 [⟨UfNode.L 1, UfNode.R 1, 1 / 2, "", ""⟩] 0).2 < 200 →
      (reduceParallel (spLoopGo 200 [⟨UfNode.L 1, UfNode.R 1, 1 / 2, "", ""⟩] 0).1).2 = false ∧
      (reduceSeries (spLoopGo 200 [⟨UfNode.L 1, UfNode.R 1, 1 / 2, "", ""⟩] 0).1).2 = false) :=
  c6_loop_bound [⟨UfNode.L 1, UfNode.R 1, 1 / 2, "", ""⟩]

/-! ## C9 -/

/-- C9 (confirmed): for the empty block collection and any connection
collection, `calculateSystemReliability` returns `systemReliability = 0` with
empty `chains` and `parallelGroups`, and `generateReliabilityFormula` returns
`"G = 0"` for both strings. -/
theorem c9_empty_system (connections : List Connection) :
    calculateSystemReliability [] connections =
      ⟨0, ⟨[], []⟩⟩ ∧
    generateReliabilityFormula [] connections = ⟨"G = 0", "G = 0"⟩ :=
  ⟨rfl, rfl⟩

/-! ## C10 -/

/-- C10 (confirmed): for every non-empty all-reserve block collection and any
connections, `calculateSystemReliability` returns the degenerate zero result
and `generateReliabilityFormula` returns `"G = 0"` twice: the redundancy
evaluator is never reached without an active non-reserve block. -/
theorem c10_all_reserve (blocks : List Block) (connections : List Connection)
    (_hne : blocks ≠ []) (hall : ∀ b ∈ blocks, b.isReserve = true) :
    calculateSystemReliability blocks connections = ⟨0, ⟨[], []⟩⟩ ∧
    generateReliabilityFormula blocks connections = ⟨"G = 0", "G = 0"⟩ := by
  have hm : connectedMainBlocks blocks connections = [] := by
    rw [List.eq_nil_iff_forall_not_mem]
    intro b hb
    rw [connectedMainBlocks, List.mem_filter] at hb
    obtain ⟨hb1, hb2⟩ := hb
    rw [connectedBlocksOf, List.mem_filter] at hb1
    rw [hall b hb1.1] at hb2
    simp at hb2
  have hm2 : blocks.filter (fun b => !b.isReserve) = [] := by
    rw [List.eq_nil_iff_forall_not_mem]
    intro b hb
    rw [List.mem_filter] at hb
    rw [hall b hb.1] at hb
    simp at hb
  refine ⟨?_, ?_⟩
  · simp only [calculateSystemReliability]
    split
    · rfl
    · split
      · rfl
      · rw [hm]
        simp
  · simp only [generateReliabilityFormula]
    split
    · rfl
    · rw [hm2]
      simp

/-- C10 witness: the hypotheses hold and the conclusion evaluates at a
concrete one-block all-reserve system. -/
theorem c10_all_reserve_witness :
    calculateSystemReliability [mkB 1 1 (1 / 2) true] [] = ⟨0, ⟨[], []⟩⟩ ∧
    generateReliabilityFormula [mkB 1 1 (1 / 2) true] [] = ⟨"G = 0", "G = 0"⟩ :=
  c10_all_reserve [mkB 1 1 (1 / 2) true] [] (by simp)
    (by intro b hb; simp at hb; rw [hb]; rfl)

/-! ## C5: evaluation of the reduction loop on the two-chain bus network -/

/-- `BEq` on terminal-node pairs unfolds to component-wise `==`. -/
theorem prodBeq_eval (a b c d : UfNode) : ((a, b) == (c, d)) = (a == c && b == d) := rfl

theorem ufnodeBeq_LL (m n : Nat) : (UfNode.L m == UfNode.L n) = (m == n) := by
  by_cases h : m = n
  · subst h; simp
  · simp [h]

theorem ufnodeBeq_RR (m n : Nat) : (UfNode.R m == UfNode.R n) = (m == n) := by
  by_cases h : m = n
  · subst h; simp
  · simp [h]

theorem ufnodeBeq_LR (m n : Nat) : (UfNode.L m == UfNode.R n) = false := by simp

theorem ufnodeBeq_RL (m n : Nat) : (UfNode.R m == UfNode.L n) = false := by simp

set_option maxHeartbeats 32000000 in
set_option maxRecDepth 4096 in
/-- The reduction loop on the two-chain network's five initial edges: one
series merge per chain (rounding each product), then the parallel merge of the
two chains, stopping after five iterations. -/
theorem c5_loop (a1 a2 a3 a4 a5 : ℚ) (g1 g2 g3 g4 g5 v1 v2 v3 v4 v5 : String) :
    spLoopGo 200
      [⟨UfNode.L 3, UfNode.L 2, a1, g1, v1⟩,
       ⟨UfNode.L 3, UfNode.L 4, a3, g3, v3⟩,
       ⟨UfNode.L 4, UfNode.L 5, a4, g4, v4⟩,
       ⟨UfNode.L 5, UfNode.R 5, a5, g5, v5⟩,
       ⟨UfNode.L 2, UfNode.R 5, a2, g2, v2⟩] 0 =
    ([⟨UfNode.L 3, UfNode.R 5,
       roundTo (1 - 1 * (1 - roundTo (a1 * a2)) *
         (1 - roundTo (roundTo (a3 * a4) * a5))),
       "[1 - " ++ String.intercalate (" × ")
         ["(1 - " ++ (g1 ++ " × " ++ g2) ++ ")",
          "(1 - " ++ ((g3 ++ " × " ++ g4) ++ " × " ++ g5) ++ ")"] ++ "]",
       "[1 - " ++ String.intercalate (" × ")
         ["(1 - " ++ (v1 ++ " × " ++ v2) ++ ")",
          "(1 - " ++ ((v3 ++ " × " ++ v4) ++ " × " ++ v5) ++ ")"] ++ "]"⟩], 5) := by
  try dsimp only [spLoopGo, reduceParallel, bucketsOf, bucketStep, bucketEmit, reduceSeries,
    seriesPick, inIndices, outIndices, addIfAbsent, assocGet, assocSet, List.foldl,
    List.find?, List.filter, List.map, List.flatMap, List.any, List.contains, List.elem,
    List.enum, List.enumFrom, List.findSome?, List.length, List.getD, List.get?,
    List.headI, List.flatten, Option.getD, Option.map]
  try simp +decide only [prodBeq_eval, ufnodeBeq_LL, ufnodeBeq_RR, ufnodeBeq_LR,
    ufnodeBeq_RL, Nat.reduceBEq, Nat.reduceBNe, Nat.reduceAdd, Bool.and_true,
    Bool.true_and, Bool.and_false, Bool.false_and, Bool.and_self, Bool.or_self,
    Bool.false_or, Bool.or_false, Bool.true_or, Bool.or_true, reduceIte,
    bne_self_eq_false, List.nil_append, List.cons_append, List.append_nil,
    List.singleton_append, List.getD, List.get?, List.map, List.filter, List.enum,
    List.enumFrom, List.length, List.flatten]
  try dsimp only [spLoopGo, reduceParallel, bucketsOf, bucketStep, bucketEmit, reduceSeries,
    seriesPick, inIndices, outIndices, addIfAbsent, assocGet, assocSet, List.foldl,
    List.find?, List.filter, List.map, List.flatMap, List.any, List.contains, List.elem,
    List.enum, List.enumFrom, List.findSome?, List.length, List.getD, List.get?,
    List.headI, List.flatten, Option.getD, Option.map]
  try simp +decide only [prodBeq_eval, ufnodeBeq_LL, ufnodeBeq_RR, ufnodeBeq_LR,
    ufnodeBeq_RL, Nat.reduceBEq, Nat.reduceBNe, Nat.reduceAdd, Bool.and_true,
    Bool.true_and, Bool.and_false, Bool.false_and, Bool.and_self, Bool.or_self,
    Bool.false_or, Bool.or_false, Bool.true_or, Bool.or_true, reduceIte,
    bne_self_eq_false, List.nil_append, List.cons_append, List.append_nil,
    List.singleton_append, List.getD, List.get?, List.map, List.filter, List.enum,
    List.enumFrom, List.length, List.flatten]
  try dsimp only [spLoopGo, reduceParallel, bucketsOf, bucketStep, bucketEmit, reduceSeries,
    seriesPick, inIndices, outIndices, addIfAbsent, assocGet, assocSet, List.foldl,
    List.find?, List.filter, List.map, List.flatMap, List.any, List.contains, List.elem,
    List.enum, List.enumFrom, List.findSome?, List.length, List.getD, List.get?,
    List.headI, List.flatten, Option.getD, Option.map]
  try simp +decide only [prodBeq_eval, ufnodeBeq_LL, ufnodeBeq_RR, ufnodeBeq_LR,
    ufnodeBeq_RL, Nat.reduceBEq, Nat.reduceBNe, Nat.reduceAdd, Bool.and_true,
    Bool.true_and, Bool.and_false, Bool.false_and, Bool.and_self, Bool.or_self,
    Bool.false_or, Bool.or_false, Bool.true_or, Bool.or_true, reduceIte,
    bne_self_eq_false, List.nil_append, List.cons_append, List.append_nil,
    List.singleton_append, List.getD, List.get?, List.map, List.filter, List.enum,
    List.enumFrom, List.length, List.flatten]
  try dsimp only [spLoopGo, reduceParallel, bucketsOf, bucketStep, bucketEmit, reduceSeries,
    seriesPick, inIndices, outIndices, addIfAbsent, assocGet, assocSet, List.foldl,
    List.find?, List.filter, List.map, List.flatMap, List.any, List.contains, List.elem,
    List.enum, List.enumFrom, List.findSome?, List.length, List.getD, List.get?,
    List.headI, List.flatten, Option.getD, Option.map]
  try simp +decide only [prodBeq_eval, ufnodeBeq_LL, ufnodeBeq_RR, ufnodeBeq_LR,
    ufnodeBeq_RL, Nat.reduceBEq, Nat.reduceBNe, Nat.reduceAdd, Bool.and_true,
    Bool.true_and, Bool.and_false, Bool.false_and, Bool.and_self, Bool.or_self,
    Bool.false_or, Bool.or_false, Bool.true_or, Bool.or_true, reduceIte,
    bne_self_eq_false, List.nil_append, List.cons_append, List.append_nil,
    List.singleton_append, List.getD, List.get?, List.map, List.filter, List.enum,
    List.enumFrom, List.length, List.flatten]
  try dsimp only [spLoopGo, reduceParallel, bucketsOf, bucketStep, bucketEmit, reduceSeries,
    seriesPick, inIndices, outIndices, addIfAbsent, assocGet, assocSet, List.foldl,
    List.find?, List.filter, List.map, List.flatMap, List.any, List.contains, List.elem,
    List.enum, List.enumFrom, List.findSome?, List.length, List.getD, List.get?,
    List.headI, List.flatten, Option.getD, Option.map]
  try simp +decide only [prodBeq_eval, ufnodeBeq_LL, ufnodeBeq_RR, ufnodeBeq_LR,
    ufnodeBeq_RL, Nat.reduceBEq, Nat.reduceBNe, Nat.reduceAdd, Bool.and_true,
    Bool.true_and, Bool.and_false, Bool.false_and, Bool.and_self, Bool.or_self,
    Bool.false_or, Bool.or_false, Bool.true_or, Bool.or_true, reduceIte,
    bne_self_eq_false, List.nil_append, List.cons_append, List.append_nil,
    List.singleton_append, List.getD, List.get?, List.map, List.filter, List.enum,
    List.enumFrom, List.length, List.flatten]
  try dsimp only [spLoopGo, reduceParallel, bucketsOf, bucketStep, bucketEmit, reduceSeries,
    seriesPick, inIndices, outIndices, addIfAbsent, assocGet, assocSet, List.foldl,
    List.find?, List.filter, List.map, List.flatMap, List.any, List.contains, List.elem,
    List.enum, List.enumFrom, List.findSome?, List.length, List.getD, List.get?,
    List.headI, List.flatten, Option.getD, Option.map]
  try simp +decide only [prodBeq_eval, ufnodeBeq_LL, ufnodeBeq_RR, ufnodeBeq_LR,
    ufnodeBeq_RL, Nat.reduceBEq, Nat.reduceBNe, Nat.reduceAdd, Bool.and_true,
    Bool.true_and, Bool.and_false, Bool.false_and, Bool.and_self, Bool.or_self,
    Bool.false_or, Bool.or_false, Bool.true_or, Bool.or_true, reduceIte,
    bne_self_eq_false, List.nil_append, List.cons_append, List.append_nil,
    List.singleton_append, List.getD, List.get?, List.map, List.filter, List.enum,
    List.enumFrom, List.length, List.flatten]
  try dsimp only [spLoopGo, reduceParallel, bucketsOf, bucketStep, bucketEmit, reduceSeries,
    seriesPick, inIndices, outIndices, addIfAbsent, assocGet, assocSet, List.foldl,
    List.find?, List.filter, List.map, List.flatMap, List.any, List.contains, List.elem,
    List.enum, List.enumFrom, List.findSome?, List.length, List.getD, List.get?,
    List.headI, List.flatten, Option.getD, Option.map]
  try simp +decide only [prodBeq_eval, ufnodeBeq_LL, ufnodeBeq_RR, ufnodeBeq_LR,
    ufnodeBeq_RL, Nat.reduceBEq, Nat.reduceBNe, Nat.reduceAdd, Bool.and_true,
    Bool.true_and, Bool.and_false, Bool.false_and, Bool.and_self, Bool.or_self,
    Bool.false_or, Bool.or_false, Bool.true_or, Bool.or_true, reduceIte,
    bne_self_eq_false, List.nil_append, List.cons_append, List.append_nil,
    List.singleton_append, List.getD, List.get?, List.map, List.filter, List.enum,
    List.enumFrom, List.length, List.flatten]
  try dsimp only [spLoopGo, reduceParallel, bucketsOf, bucketStep, bucketEmit, reduceSeries,
    seriesPick, inIndices, outIndices, addIfAbsent, assocGet, assocSet, List.foldl,
    List.find?, List.filter, List.map, List.flatMap, List.any, List.contains, List.elem,
    List.enum, List.enumFrom, List.findSome?, List.length, List.getD, List.get?,
    List.headI, List.flatten, Option.getD, Option.map]
  try simp +decide only [prodBeq_eval, ufnodeBeq_LL, ufnodeBeq_RR, ufnodeBeq_LR,
    ufnodeBeq_RL, Nat.reduceBEq, Nat.reduceBNe, Nat.reduceAdd, Bool.and_true,
    Bool.true_and, Bool.and_false, Bool.false_and, Bool.and_self, Bool.or_self,
    Bool.false_or, Bool.or_false, Bool.true_or, Bool.or_true, reduceIte,
    bne_self_eq_false, List.nil_append, List.cons_append, List.append_nil,
    List.singleton_append, List.getD, List.get?, List.map, List.filter, List.enum,
    List.enumFrom, List.length, List.flatten]

set_option maxHeartbeats 2000000 in
/-- Full evaluation of the engine on the two-chain bus network: every merge of
the reduction rounds to 6 decimal places. -/
theorem c5_reduction_eval (p1 p2 p3 p4 p5 : ℚ) :
    (calculateSystemReliability (c5blocks p1 p2 p3 p4 p5) c5conns).systemReliability =
      roundTo (1 - (1 - roundTo (roundTo p1 * roundTo p2)) *
        (1 - roundTo (roundTo (roundTo p3 * roundTo p4) * roundTo p5))) := by
  have hloop := c5_loop (roundTo p1) (roundTo p2) (roundTo p3) (roundTo p4) (roundTo p5)
    ("p<sub>" ++ toString (1 : Nat) ++ "</sub>") ("p<sub>" ++ toString (2 : Nat) ++ "</sub>")
    ("p<sub>" ++ toString (3 : Nat) ++ "</sub>") ("p<sub>" ++ toString (4 : Nat) ++ "</sub>")
    ("p<sub>" ++ toString (5 : Nat) ++ "</sub>")
    (formatTo p1) (formatTo p2) (formatTo p3) (formatTo p4) (formatTo p5)
  have hedges : mkSpEdges [1, 3, 4, 5, 2]
      (buildGraph (c5blocks p1 p2 p3 p4 p5) c5conns) (ufBuild [1, 3, 4, 5, 2] c5conns) =
      [⟨UfNode.L 3, UfNode.L 2, roundTo p1,
        "p<sub>" ++ toString (1 : Nat) ++ "</sub>", formatTo p1⟩,
       ⟨UfNode.L 3, UfNode.L 4, roundTo p3,
        "p<sub>" ++ toString (3 : Nat) ++ "</sub>", formatTo p3⟩,
       ⟨UfNode.L 4, UfNode.L 5, roundTo p4,
        "p<sub>" ++ toString (4 : Nat) ++ "</sub>", formatTo p4⟩,
       ⟨UfNode.L 5, UfNode.R 5, roundTo p5,
        "p<sub>" ++ toString (5 : Nat) ++ "</sub>", formatTo p5⟩,
       ⟨UfNode.L 2, UfNode.R 5, roundTo p2,
        "p<sub>" ++ toString (2 : Nat) ++ "</sub>", formatTo p2⟩] := rfl
  have hsp : spReduceComponent [1, 3, 4, 5, 2]
      (buildGraph (c5blocks p1 p2 p3 p4 p5) c5conns) c5conns = some
      { groups := [], orderedGroups := [],
        reliability := roundTo (roundTo (1 - 1 * (1 - roundTo (roundTo p1 * roundTo p2)) *
          (1 - roundTo (roundTo (roundTo p3 * roundTo p4) * roundTo p5)))),
        mode := AnalyzeMode.reducedSp, parallelPaths := [],
        reducedGeneral := some ("[1 - " ++ String.intercalate (" × ")
          ["(1 - " ++ (("p<sub>" ++ toString (1 : Nat) ++ "</sub>") ++ " × " ++
              ("p<sub>" ++ toString (2 : Nat) ++ "</sub>")) ++ ")",
           "(1 - " ++ ((("p<sub>" ++ toString (3 : Nat) ++ "</sub>") ++ " × " ++
              ("p<sub>" ++ toString (4 : Nat) ++ "</sub>")) ++ " × " ++
              ("p<sub>" ++ toString (5 : Nat) ++ "</sub>")) ++ ")"] ++ "]"),
        reducedValues := some ("[1 - " ++ String.intercalate (" × ")
          ["(1 - " ++ ((formatTo p1) ++ " × " ++ (formatTo p2)) ++ ")",
           "(1 - " ++ (((formatTo p3) ++ " × " ++ (formatTo p4)) ++ " × " ++
              (formatTo p5)) ++ ")"] ++ "]") } := by
    unfold spReduceComponent
    dsimp only
    rw [hedges, hloop]
    dsimp only [List.length]
    norm_num
  have hana : (analyzeComponent [1, 3, 4, 5, 2]
      (buildGraph (c5blocks p1 p2 p3 p4 p5) c5conns) c5conns).reliability =
      roundTo (roundTo (1 - 1 * (1 - roundTo (roundTo p1 * roundTo p2)) *
        (1 - roundTo (roundTo (roundTo p3 * roundTo p4) * roundTo p5)))) := by
    unfold analyzeComponent
    rw [hsp]
  have e : (calculateSystemReliability (c5blocks p1 p2 p3 p4 p5) c5conns).systemReliability
      = roundTo (roundTo ((analyzeComponent [1, 3, 4, 5, 2]
          (buildGraph (c5blocks p1 p2 p3 p4 p5) c5conns) c5conns).reliability)) := rfl
  rw [e, hana, roundTo_idem, roundTo_idem, roundTo_idem, one_mul]

/-- C5 (corrected), the amended claim: on the two-chain bus network the
series-parallel reducer succeeds, but every merge rounds to 6 decimal places,
so the result is `roundTo (1 − (1 − r₁₂)(1 − r₃₄₅))` with
`r₁₂ = roundTo (roundTo p1 · roundTo p2)` and
`r₃₄₅ = roundTo (roundTo (roundTo p3 · roundTo p4) · roundTo p5)` — not the
spec's single rounding of the exact product formula. -/
theorem c5_amended_two_chain_network (p1 p2 p3 p4 p5 : ℚ) :
    (calculateSystemReliability (c5blocks p1 p2 p3 p4 p5) c5conns).systemReliability =
      roundTo (1 - (1 - roundTo (roundTo p1 * roundTo p2)) *
        (1 - roundTo (roundTo (roundTo p3 * roundTo p4) * roundTo p5))) :=
  c5_reduction_eval p1 p2 p3 p4 p5

/-- C5 counterexample: at `p₁ = p₃ = 1/2`, `p₂ = 0.500001`, `p₄ = p₅ = 1` the
engine returns `0.625001` while the claimed formula
`1 − (1 − p₁p₂)(1 − p₃p₄p₅)` rounded to 6 decimals is `0.625`. -/
theorem c5_counterexample :
    (calculateSystemReliability
        (c5blocks (1 / 2) (500001 / 1000000) (1 / 2) 1 1) c5conns).systemReliability ≠
      roundTo (1 - (1 - (1 / 2) * (500001 / 1000000)) * (1 - (1 / 2) * 1 * 1)) := by
  have h := c5_reduction_eval (1 / 2) (500001 / 1000000) (1 / 2) 1 1
  have g2 : roundTo (500001 / 1000000) = 500001 / 1000000 :=
    roundTo_of_grid _ 500001 (by norm_num)
  have e1 : roundTo (500001 / 2000000) = 250001 / 1000000 := by
    have := roundTo_eval (500001 / 2000000) 250001 (by norm_num [epsJS])
      (by norm_num [epsJS])
    simpa using this
  have e2 : roundTo (1250001 / 2000000) = 625001 / 1000000 := by
    have := roundTo_eval (1250001 / 2000000) 625001 (by norm_num [epsJS])
      (by norm_num [epsJS])
    simpa using this
  have e3 : roundTo (2500001 / 4000000) = 625000 / 1000000 := by
    have := roundTo_eval (2500001 / 4000000) 625000 (by norm_num [epsJS])
      (by norm_num [epsJS])
    simpa using this
  rw [h]
  norm_num [roundTo_half, roundTo_one, g2, e1, e2, e3]

/-! ## C3: rounding of surfaced values -/

/-- C3 counterexample: at one main block with reliability `0.9999995` plus one
reserve block with reliability `1`, the surfaced `systemReliability` is
`1.000001 > 1` — no clamp to `[0,1]` exists anywhere in the code. -/
theorem c3_unclamped_counterexample :
    1 < (calculateSystemReliability c2blocks []).systemReliability := by
  have e : (calculateSystemReliability c2blocks []).systemReliability
      = roundTo (roundTo (roundTo (sumExactFrom
          ((exactKDistribution [9999995 / 10000000, 1]).map roundTo) 1 2))) := rfl
  have hdist : exactKDistribution [9999995 / 10000000, 1] =
      [0, 1 / 2000000, 1999999 / 2000000] := by
    norm_num [exactKDistribution, dpDown, dpUpdate, List.replicate, List.set]
  have eA : roundTo (1 / 2000000) = 1 / 1000000 := by
    have := roundTo_eval (1 / 2000000) 1 (by norm_num [epsJS]) (by norm_num [epsJS])
    simpa using this
  have eB : roundTo (1999999 / 2000000) = 1 := by
    have := roundTo_eval (1999999 / 2000000) 1000000 (by norm_num [epsJS])
      (by norm_num [epsJS])
    simpa using this
  have gBig : roundTo (1000001 / 1000000) = 1000001 / 1000000 :=
    roundTo_of_grid _ 1000001 (by norm_num)
  rw [e, hdist]
  norm_num [sumExactFrom, List.range', roundTo_zero, roundTo_one, eA, eB, gBig]

/-- C3 (corrected), the amended claim: every probability surfaced by
`calculateSystemReliability` (the `systemReliability` field and the
reliabilities inside `details`) is rounded to 6 decimal places — an integer
multiple of 10⁻⁶ — but it is *not* clamped to `[0,1]`. -/
theorem c3_outputs_rounded (blocks : List Block) (connections : List Connection) :
    (∃ k : ℤ, (calculateSystemReliability blocks connections).systemReliability =
      (k : ℚ) / 1000000) ∧
    (∀ c ∈ (calculateSystemReliability blocks connections).details.chains,
      (∃ k : ℤ, c.reliability = (k : ℚ) / 1000000) ∧
      (∃ k : ℤ, c.withReserveReliability = (k : ℚ) / 1000000)) ∧
    (∀ g ∈ (calculateSystemReliability blocks connections).details.parallelGroups,
      ∃ k : ℤ, g.reliability = (k : ℚ) / 1000000) := by
  rw [calculateSystemReliability]
  dsimp only
  split
  · exact ⟨⟨0, by norm_num⟩, by simp, by simp⟩
  split
  · exact ⟨⟨0, by norm_num⟩, by simp, by simp⟩
  split
  · exact ⟨⟨0, by norm_num⟩, by simp, by simp⟩
  refine ⟨roundTo_den _, ?_, ?_⟩
  · intro c hc
    simp only [List.mem_map] at hc
    obtain ⟨ic, _, hcc⟩ := hc
    refine ⟨?_, ?_⟩
    · rw [← hcc]
      exact roundTo_den _
    · rw [← hcc]
      exact roundTo_den _
  · intro g hg
    simp only [List.mem_flatMap] at hg
    obtain ⟨a, _, hga⟩ := hg
    split at hga
    · simp at hga
    · simp only [List.mem_map] at hga
      obtain ⟨grp, _, hgg⟩ := hga
      rw [← hgg]
      exact roundTo_den _

/-- C3 witness: the amended statement applied at a concrete one-block system. -/
theorem c3_outputs_rounded_witness :
    (∃ k : ℤ, (calculateSystemReliability [mkB 1 1 (1 / 2)] []).systemReliability =
      (k : ℚ) / 1000000) ∧
    (∀ c ∈ (calculateSystemReliability [mkB 1 1 (1 / 2)] []).details.chains,
      (∃ k : ℤ, c.reliability = (k : ℚ) / 1000000) ∧
      (∃ k : ℤ, c.withReserveReliability = (k : ℚ) / 1000000)) ∧
    (∀ g ∈ (calculateSystemReliability [mkB 1 1 (1 / 2)] []).details.parallelGroups,
      ∃ k : ℤ, g.reliability = (k : ℚ) / 1000000) :=
  c3_outputs_rounded [mkB 1 1 (1 / 2)] []

end VSOne

namespace VSOne

/-! ## C8: the bus-pairing activity rule -/

/-- C8 counterexample system: three blocks, a left-left tie `1-2`, a
right-right tie `2-3` and a left-left tie `2-3`. -/
def c8blocks : List Block := [mkB 1 1 (1 / 2), mkB 2 2 (1 / 2), mkB 3 3 (1 / 2)]

def c8conns : List Connection :=
  [mkC 1 1 2 Side.left Side.left, mkC 2 2 3 Side.right Side.right,
   mkC 3 2 3 Side.left Side.left]

/-- C8 counterexample: block 3 is bus-tied on its left terminal to block 2
(which is active) and has a right-right tie, yet `isBlockConnected`
classifies it inactive: the code checks only whether the left neighbour is
minimum-numbered or has a valid signal input, not whether it is active. -/
theorem c8_counterexample :
    isBlockConnected 2 c8blocks c8conns false = true ∧
    isBlockConnected 3 c8blocks c8conns false = false ∧
    getValidInputs 3 c8conns = [] :=
  ⟨rfl, rfl, rfl⟩

/-! ## C7: self-loop connections -/

def c7blocks : List Block := [mkB 1 1 (1 / 2), mkB 2 2 (1 / 2)]

def c7loop : Connection := mkC 9 2 2 Side.right Side.left

/-- C7 counterexample: adding the right-to-left self-loop on block 2 changes
`systemReliability` from `1/2` to `1/4`: the self-loop is a valid signal
connection, so it activates block 2 and adds an adjacency edge. -/
theorem c7_counterexample :
    (calculateSystemReliability c7blocks []).systemReliability = 1 / 2 ∧
    (calculateSystemReliability c7blocks [c7loop]).systemReliability = 1 / 4 := by
  constructor
  · have e : (calculateSystemReliability c7blocks []).systemReliability =
        roundTo (roundTo (roundTo (roundTo (1 / 2)))) := rfl
    rw [e]
    simp only [roundTo_half]
  · have e : (calculateSystemReliability c7blocks [c7loop]).systemReliability =
        roundTo (roundTo (1 * roundTo (roundTo (1 / 2)) * roundTo (1 * (1 / 2)))) := rfl
    have h1 : roundTo (1 * (1 / 2)) = 1 / 2 := by norm_num [roundTo_half]
    have h2 : roundTo (1 / 4) = 1 / 4 := roundTo_of_grid _ 250000 (by norm_num)
    rw [e]
    simp only [roundTo_half, h1]
    norm_num [h2]

/-! ## C4: the two reducers disagree -/

/-- C4 counterexample system: a diamond of four blocks with signal edges
`1→2`, `1→3`, `2→4`, `3→4` and no bus ties. -/
def c4blocks : List Block :=
  [mkB 1 1 (1 / 2), mkB 2 2 (1 / 2), mkB 3 3 (1 / 2), mkB 4 4 (1 / 2)]

def c4conns : List Connection :=
  [mkC 1 1 2 Side.right Side.left, mkC 2 1 3 Side.right Side.left,
   mkC 3 2 4 Side.right Side.left, mkC 4 3 4 Side.right Side.left]

/-- C4 counterexample: on the diamond the series-parallel reducer fully
reduces to a single edge with reliability `3/16`, while the legacy group
reducer (which sees parallelism only through bus-tie pairs) produces `1/16`
— a disagreement of `1/8`, far beyond `10⁻⁶`. -/
theorem c4_counterexample :
    collectComponents c4blocks (buildGraph c4blocks c4conns) c4conns = [[1, 2, 4, 3]] ∧
    (spReduceComponent [1, 2, 4, 3] (buildGraph c4blocks c4conns) c4conns).map
      (fun r => r.reliability) = some (3 / 16) ∧
    (legacyGroupsComponent [1, 2, 4, 3] (buildGraph c4blocks c4conns) c4conns).reliability
      = 1 / 16 ∧
    ¬(|(3 : ℚ) / 16 - 1 / 16| < 1 / 1000000) := by
  have h34 : roundTo (3 / 4) = 3 / 4 := roundTo_of_grid _ 750000 (by norm_num)
  have h38 : roundTo (3 / 8) = 3 / 8 := roundTo_of_grid _ 375000 (by norm_num)
  have h316 : roundTo (3 / 16) = 3 / 16 := roundTo_of_grid _ 187500 (by norm_num)
  have h116 : roundTo (1 / 16) = 1 / 16 := roundTo_of_grid _ 62500 (by norm_num)
  have habs : |(3 : ℚ) / 16 - 1 / 16| = 1 / 8 := by
    rw [show (3 : ℚ) / 16 - 1 / 16 = 1 / 8 by norm_num]
    exact abs_of_pos (by norm_num)
  refine ⟨rfl, ?_, ?_, by rw [habs]; norm_num⟩
  · have e : (spReduceComponent [1, 2, 4, 3] (buildGraph c4blocks c4conns) c4conns).map
        (fun r => r.reliability) =
        some (roundTo (roundTo (roundTo (roundTo (1 / 2) *
          roundTo (1 - 1 * (1 - roundTo (1 / 2)) * (1 - roundTo (1 / 2)))) *
          roundTo (1 / 2)))) := rfl
    rw [e]
    simp only [roundTo_half]
    norm_num [h34, h38, h316]
  · have e : (legacyGroupsComponent [1, 2, 4, 3] (buildGraph c4blocks c4conns)
        c4conns).reliability =
        roundTo (1 * (1 / 2) * (1 / 2) * (1 / 2) * (1 / 2)) := rfl
    rw [e]
    norm_num [h116]

/-- Merging a node with itself leaves the union-find parent map unchanged. -/
theorem ufUnion_self (parent : List (UfNode × UfNode)) (x : UfNode) :
    ufUnion parent x x = parent := by
  rw [ufUnion]
  simp

/-- A same-side self-loop is skipped by the terminal-merging step. -/
theorem ufStep_selfloop (component : List Nat) (parent : List (UfNode × UfNode))
    (c : Connection) (hself : c.fromBlockId = c.toBlockId)
    (hside : c.fromSide = c.toSide) :
    ufStep component parent c = parent := by
  rw [ufStep]
  by_cases hm : (!(component.contains c.fromBlockId) ||
      !(component.contains c.toBlockId)) = true
  · rw [if_pos hm]
  · rw [if_neg hm]
    cases hf : c.fromSide
    · rw [if_pos (by rw [hside.symm.trans hf]; rfl)]
      rw [hself, ufUnion_self]
    · rw [if_neg (by rw [hside.symm.trans hf]; simp)]
      rw [if_pos (by rw [hside.symm.trans hf]; rfl)]
      rw [hself, ufUnion_self]

/-- A same-side self-loop is not a valid signal connection. -/
theorem isValidConnection_selfside (c : Connection) (hside : c.fromSide = c.toSide) :
    isValidConnection c = false := by
  rw [isValidConnection, ← hside]
  cases c.fromSide <;> rfl

/-- C7 (corrected), the amended claim: a *same-side* self-loop connection is
ignored: it contributes no signal edge to the connection graph and leaves the
series-parallel reduction unchanged.  (A right-to-left self-loop, by contrast,
is a valid signal connection and does change the results — see the
counterexample.) -/
theorem c7_amended_sameside_selfloop (blocks : List Block)
    (connections : List Connection) (component : List Nat)
    (graph : ConnectionGraph) (c : Connection)
    (hself : c.fromBlockId = c.toBlockId) (hside : c.fromSide = c.toSide) :
    buildGraph blocks (connections ++ [c]) = buildGraph blocks connections ∧
    spReduceComponent component graph (connections ++ [c]) =
      spReduceComponent component graph connections := by
  constructor
  · rw [buildGraph, buildGraph, List.filter_append]
    simp [isValidConnection_selfside c hside]
  · have hb : ufBuild component (connections ++ [c]) = ufBuild component connections := by
      rw [ufBuild, ufBuild, List.foldl_append]
      simp only [List.foldl_cons, List.foldl_nil]
      exact ufStep_selfloop component _ c hself hside
    rw [spReduceComponent, spReduceComponent, hb]

/-- C7 witness: the amended statement applied to a concrete left-left
self-loop appended to an empty connection list. -/
theorem c7_amended_witness :
    buildGraph [mkB 1 1 (1 / 2)] ([] ++ [mkC 9 1 1 Side.left Side.left]) =
      buildGraph [mkB 1 1 (1 / 2)] [] ∧
    spReduceComponent [1] (buildGraph [mkB 1 1 (1 / 2)] [])
        ([] ++ [mkC 9 1 1 Side.left Side.left]) =
      spReduceComponent [1] (buildGraph [mkB 1 1 (1 / 2)] []) [] :=
  c7_amended_sameside_selfloop [mkB 1 1 (1 / 2)] [] [1]
    (buildGraph [mkB 1 1 (1 / 2)] []) (mkC 9 1 1 Side.left Side.left) rfl rfl

/-- C8 (corrected), the amended claim: a block is classified active by the
bus-pairing rule whenever it has a left-left tie to a non-reserve block that
is minimum-numbered *or has a valid signal input* (the code does not check the
neighbour's own activity), together with at least one right-right tie. -/
theorem c8_amended_active_rule (blockId nbId m : Nat) (blocks : List Block)
    (connections : List Connection) (c c' : Connection) (nb : Block)
    (hone : (blocks.filter (fun b => !b.isReserve)).length ≠ 1)
    (hc : c ∈ connections)
    (hcl : (c.fromBlockId = blockId ∧ c.fromSide = Side.left) ∨
           (c.toBlockId = blockId ∧ c.toSide = Side.left))
    (hcll : c.fromSide = Side.left ∧ c.toSide = Side.left)
    (hnbid : (if c.fromBlockId == blockId then c.toBlockId else c.fromBlockId) = nbId)
    (hfind : blocks.find? (fun b => b.id == nbId) = some nb)
    (hnres : nb.isReserve = false)
    (hgood : (natListMin ((blocks.filter (fun b => !b.isReserve)).map
        (fun b => b.number)) = some m ∧ nb.number = m) ∨
      0 < (getValidInputs nbId connections).length)
    (hc' : c' ∈ connections)
    (hcr : (c'.fromBlockId = blockId ∧ c'.fromSide = Side.right) ∨
           (c'.toBlockId = blockId ∧ c'.toSide = Side.right))
    (hcrr : c'.fromSide = Side.right ∧ c'.toSide = Side.right) :
    isBlockConnected blockId blocks connections false = true := by
  have hpredl : (((c.fromBlockId == blockId && c.fromSide == Side.left) ||
      (c.toBlockId == blockId && c.toSide == Side.left)) &&
      c.fromSide == Side.left && c.toSide == Side.left) = true := by
    rcases hcl with ⟨h1, _⟩ | ⟨h1, _⟩ <;> simp [h1, hcll.1, hcll.2]
  have hpredr : (((c'.fromBlockId == blockId && c'.fromSide == Side.right) ||
      (c'.toBlockId == blockId && c'.toSide == Side.right)) &&
      c'.fromSide == Side.right && c'.toSide == Side.right) = true := by
    rcases hcr with ⟨h1, _⟩ | ⟨h1, _⟩ <;> simp [h1, hcrr.1, hcrr.2]
  have hmeml : c ∈ connections.filter (fun cc =>
      ((cc.fromBlockId == blockId && cc.fromSide == Side.left) ||
        (cc.toBlockId == blockId && cc.toSide == Side.left)) &&
      cc.fromSide == Side.left && cc.toSide == Side.left) :=
    List.mem_filter.mpr ⟨hc, hpredl⟩
  have hmemr : c' ∈ connections.filter (fun cc =>
      ((cc.fromBlockId == blockId && cc.fromSide == Side.right) ||
        (cc.toBlockId == blockId && cc.toSide == Side.right)) &&
      cc.fromSide == Side.right && cc.toSide == Side.right) :=
    List.mem_filter.mpr ⟨hc', hpredr⟩
  rw [isBlockConnected]
  dsimp only
  rw [if_neg (by simp)]
  rw [if_neg hone]
  by_cases hq : (match blocks.find? (fun b => b.id == blockId),
      natListMin ((blocks.filter (fun b => !b.isReserve)).map (fun b => b.number)) with
    | some b, some mm => b.number == mm
    | _, _ => false) = true
  · rw [if_pos hq]
  · rw [if_neg hq]
    by_cases hv : 0 < (getValidInputs blockId connections).length
    · rw [if_pos hv]
    · rw [if_neg hv]
      rw [if_pos (by
        simp only [Bool.and_eq_true, decide_eq_true_eq]
        exact ⟨List.length_pos_of_mem hmeml, List.length_pos_of_mem hmemr⟩)]
      apply List.any_eq_true.mpr
      refine ⟨c, hmeml, ?_⟩
      dsimp only
      rw [hnbid, hfind]
      dsimp only
      rw [hnres]
      simp only [Bool.not_false, if_true]
      rcases hgood with ⟨hm, hnum⟩ | hval
      · rw [hm]
        dsimp only
        rw [hnum]
        simp
      · simp [hval]

/-- C8 witness: the amended rule applied to a concrete two-block parallel
pair tied on both rails, the second block being the one classified active. -/
theorem c8_amended_witness :
    isBlockConnected 2 [mkB 1 1 (1 / 2), mkB 2 2 (1 / 2)]
      [mkC 1 1 2 Side.left Side.left, mkC 2 1 2 Side.right Side.right] false = true :=
  c8_amended_active_rule 2 1 1 [mkB 1 1 (1 / 2), mkB 2 2 (1 / 2)]
    [mkC 1 1 2 Side.left Side.left, mkC 2 1 2 Side.right Side.right]
    (mkC 1 1 2 Side.left Side.left) (mkC 2 1 2 Side.right Side.right)
    (mkB 1 1 (1 / 2))
    (by rw [show ((([mkB 1 1 (1 / 2), mkB 2 2 (1 / 2)] : List Block).filter
        (fun b => !b.isReserve)).length) = 2 from rfl]; norm_num)
    (by simp) (Or.inr ⟨rfl, rfl⟩) ⟨rfl, rfl⟩ rfl rfl rfl
    (Or.inl ⟨rfl, rfl⟩) (by simp) (Or.inr ⟨rfl, rfl⟩) ⟨rfl, rfl⟩

/-- C4 amended system: the two-block parallel pair tied on both rails, the
shape the legacy reducer is designed for. -/
def c4pblocks (a b : ℚ) : List Block := [mkB 1 1 a, mkB 2 2 b]

def c4pconns : List Connection :=
  [mkC 1 1 2 Side.left Side.left, mkC 2 1 2 Side.right Side.right]

set_option maxHeartbeats 4000000 in
/-- C4 (corrected), the amended claim: on the two-block both-rails parallel
pair with reliabilities already on the 10⁻⁶ grid, the series-parallel reducer
fully reduces and agrees exactly with the legacy group reducer. -/
theorem c4_amended_pair_agreement (a b : ℚ) (ha : roundTo a = a)
    (hb : roundTo b = b) :
    (spReduceComponent [1, 2] (buildGraph (c4pblocks a b) c4pconns) c4pconns).map
      (fun r => r.reliability) =
    some ((legacyGroupsComponent [1, 2] (buildGraph (c4pblocks a b) c4pconns)
      c4pconns).reliability) := by
  have e1 : (spReduceComponent [1, 2] (buildGraph (c4pblocks a b) c4pconns)
      c4pconns).map (fun r => r.reliability) =
      some (roundTo (roundTo (1 - 1 * (1 - roundTo a) * (1 - roundTo b)))) := rfl
  have e2 : (legacyGroupsComponent [1, 2] (buildGraph (c4pblocks a b) c4pconns)
      c4pconns).reliability =
      roundTo (1 * roundTo (1 - 1 * (1 - a) * (1 - b))) := rfl
  rw [e1, e2, ha, hb, one_mul, one_mul, roundTo_idem]

/-- C4 witness: the amended agreement at `a = b = 1/2`. -/
theorem c4_amended_witness :
    (spReduceComponent [1, 2] (buildGraph (c4pblocks (1 / 2) (1 / 2)) c4pconns)
        c4pconns).map (fun r => r.reliability) =
    some ((legacyGroupsComponent [1, 2]
      (buildGraph (c4pblocks (1 / 2) (1 / 2)) c4pconns) c4pconns).reliability) :=
  c4_amended_pair_agreement (1 / 2) (1 / 2) roundTo_half roundTo_half

/-! ## C2: the redundancy evaluator, amended -/

section AssocSetGet

variable {α β : Type} [BEq α] [LawfulBEq α]

theorem assocGet_assocSet_self (m : List (α × β)) (k : α) (v : β) :
    assocGet (assocSet m k v) k = some v := by
  induction m with
  | nil => simp [assocSet, assocGet]
  | cons p rest ih =>
      by_cases hk : p.1 == k
      · rw [assocSet, if_pos hk, assocGet]
        simp [List.find?_cons, hk]
      · rw [assocSet, if_neg hk]
        rw [assocGet, List.find?_cons]
        simp only [Bool.not_eq_true] at hk
        simp only [hk]
        exact ih

theorem assocGet_assocSet_ne (m : List (α × β)) (k k' : α) (v : β)
    (h : (k == k') = false) :
    assocGet (assocSet m k v) k' = assocGet m k' := by
  induction m with
  | nil => simp [assocSet, assocGet, h]
  | cons p rest ih =>
      by_cases hk : p.1 == k
      · rw [assocSet, if_pos hk]
        rw [assocGet, assocGet, List.find?_cons, List.find?_cons]
        have hp : (p.1 == k') = false := by
          have h1 : p.1 = k := eq_of_beq hk
          rw [h1]; exact h
        simp only [h, hp]
      · rw [assocSet, if_neg hk]
        rw [assocGet, assocGet, List.find?_cons, List.find?_cons]
        by_cases hp : p.1 == k'
        · simp only [hp]
        · simp only [Bool.not_eq_true] at hp
          simp only [hp]
          exact ih

end AssocSetGet

/-- Blocks whose ids avoid `k` leave the entry at `k` untouched. -/
theorem foldl_blockSet_get_skip (xs : List Block) :
    ∀ (m : List (Nat × Block)) (k : Nat), (∀ x ∈ xs, x.id ≠ k) →
    assocGet (xs.foldl (fun m x => assocSet m x.id x) m) k = assocGet m k := by
  induction xs with
  | nil => intro m k _; rfl
  | cons x xs ih =>
      intro m k h
      rw [List.foldl_cons]
      rw [ih (assocSet m x.id x) k (fun y hy => h y (List.mem_cons_of_mem _ hy))]
      exact assocGet_assocSet_ne m x.id k x
        (beq_eq_false_iff_ne.mpr (h x (List.mem_cons_self _ _)))

/-- The block map built by `buildGraph` maps every id of a duplicate-free
block collection to its block. -/
theorem buildGraph_blocks_get (blocks : List Block) (connections : List Connection)
    (hnd : (blocks.map (fun x => x.id)).Nodup) (b : Block) (hb : b ∈ blocks) :
    assocGet (buildGraph blocks connections).blocks b.id = some b := by
  have core : ∀ (l : List Block) (m : List (Nat × Block)) (b : Block), b ∈ l →
      ((l.map (fun x => x.id)).Nodup) →
      assocGet (l.foldl (fun m x => assocSet m x.id x) m) b.id = some b := by
    intro l
    induction l with
    | nil => intro m b hb; simp at hb
    | cons x xs ih =>
        intro m b hb hnd'
        rw [List.map_cons, List.nodup_cons] at hnd'
        rw [List.foldl_cons]
        rcases List.mem_cons.mp hb with rfl | hb'
        · rw [foldl_blockSet_get_skip xs (assocSet m b.id b) b.id
            (fun y hy hyid => hnd'.1 (List.mem_map.mpr ⟨y, hy, hyid⟩))]
          exact assocGet_assocSet_self m b.id b
        · exact ih (assocSet m x.id x) b hb' hnd'.2
  exact core blocks [] b hb hnd

/-- Looking every id of a registered block list back up yields exactly the
reliabilities. -/
theorem filterMap_lookup_reliability (graph : ConnectionGraph) (l : List Block)
    (h : ∀ b ∈ l, assocGet graph.blocks b.id = some b) :
    ((l.map (fun b => b.id)).filterMap
      (fun id => (assocGet graph.blocks id).map (fun b => b.reliability))) =
    l.map (fun b => b.reliability) := by
  induction l with
  | nil => rfl
  | cons x xs ih =>
      rw [List.map_cons, List.filterMap_cons, h x (List.mem_cons_self _ _)]
      rw [List.map_cons]
      rw [ih (fun b hb => h b (List.mem_cons_of_mem _ hb))]
      rfl

/-- C2 (corrected), the amended claim: with a connected reserve block and a
connected main block present, `systemReliability` is the sum of the
Poisson-binomial probabilities of `k` successes for `k` from the main count to
the pooled count — but over the per-`k` values *each rounded to 6 decimal
places first*, with the total rounded again. -/
theorem c2_amended_pooled_rounding (blocks : List Block)
    (connections : List Connection)
    (hnd : (blocks.map (fun b => b.id)).Nodup)
    (hres : connectedReserveBlocks blocks connections ≠ [])
    (hmain : connectedMainBlocks blocks connections ≠ []) :
    (calculateSystemReliability blocks connections).systemReliability =
      roundTo (sumExactFrom
        ((exactKDistribution ((connectedMainBlocks blocks connections ++
          connectedReserveBlocks blocks connections).map
            (fun b => b.reliability))).map roundTo)
        (connectedMainBlocks blocks connections).length
        ((connectedMainBlocks blocks connections).length +
         (connectedReserveBlocks blocks connections).length)) := by
  obtain ⟨bm, hbm⟩ := List.exists_mem_of_ne_nil _ hmain
  have hbm_cb : bm ∈ connectedBlocksOf blocks connections :=
    (List.mem_filter.mp hbm).1
  have hbm_bl : bm ∈ blocks := (List.mem_filter.mp hbm_cb).1
  have h1 : ¬(blocks.length = 0) := by
    intro h
    rw [List.length_eq_zero] at h
    rw [h] at hbm_bl
    simp at hbm_bl
  have h2 : ¬((connectedBlocksOf blocks connections).length = 0) := by
    intro h
    rw [List.length_eq_zero] at h
    rw [h] at hbm_cb
    simp at hbm_cb
  have h3 : ¬((connectedMainBlocks blocks connections).length = 0) := by
    intro h
    rw [List.length_eq_zero] at h
    exact hmain h
  have h4 : (connectedReserveBlocks blocks connections).length > 0 := by
    rcases List.exists_mem_of_ne_nil _ hres with ⟨br, hbr⟩
    exact List.length_pos_of_mem hbr
  have hsub : ∀ b ∈ connectedMainBlocks blocks connections ++
      connectedReserveBlocks blocks connections, b ∈ blocks := by
    intro b hb
    rcases List.mem_append.mp hb with h | h
    · exact (List.mem_filter.mp ((List.mem_filter.mp h).1)).1
    · exact (List.mem_filter.mp ((List.mem_filter.mp h).1)).1
  have hlook : ∀ b ∈ connectedMainBlocks blocks connections ++
      connectedReserveBlocks blocks connections,
      assocGet (buildGraph blocks connections).blocks b.id = some b :=
    fun b hb => buildGraph_blocks_get blocks connections hnd b (hsub b hb)
  have hprobs : ((connectedMainBlocks blocks connections).map (fun b => b.id) ++
      (connectedReserveBlocks blocks connections).map (fun b => b.id)).filterMap
      (fun id => (assocGet (buildGraph blocks connections).blocks id).map
        (fun b => b.reliability)) =
      (connectedMainBlocks blocks connections ++
        connectedReserveBlocks blocks connections).map (fun b => b.reliability) := by
    rw [← List.map_append]
    exact filterMap_lookup_reliability _ _ hlook
  rw [calculateSystemReliability]
  dsimp only
  rw [if_neg h1, if_neg h2, if_neg h3]
  dsimp only
  rw [if_pos h4]
  rw [calculateSystemWithReserve]
  dsimp only
  rw [hprobs]
  rw [calculateExactKProbabilities]
  have hlen : ((connectedMainBlocks blocks connections).map (fun b => b.id) ++
      (connectedReserveBlocks blocks connections).map (fun b => b.id)).length =
      (connectedMainBlocks blocks connections).length +
      (connectedReserveBlocks blocks connections).length := by
    rw [List.length_append, List.length_map, List.length_map]
  have hlenm : ((connectedMainBlocks blocks connections).map
      (fun b => b.id)).length = (connectedMainBlocks blocks connections).length :=
    List.length_map _ _
  rw [hlen, hlenm, roundTo_idem, roundTo_idem]

/-- C2 witness: the amended statement applied at the counterexample input
(one main block, one reserve block). -/
theorem c2_amended_witness :
    (calculateSystemReliability c2blocks []).systemReliability =
      roundTo (sumExactFrom
        ((exactKDistribution ((connectedMainBlocks c2blocks [] ++
          connectedReserveBlocks c2blocks []).map (fun b => b.reliability))).map
          roundTo)
        (connectedMainBlocks c2blocks []).length
        ((connectedMainBlocks c2blocks []).length +
         (connectedReserveBlocks c2blocks []).length)) :=
  c2_amended_pooled_rounding c2blocks []
    (by rw [show (c2blocks.map (fun b => b.id)) = [1, 2] from rfl]; decide)
    (by rw [show connectedReserveBlocks c2blocks [] = [mkB 2 2 1 true] from rfl]
        exact List.cons_ne_nil _ _)
    (by rw [show connectedMainBlocks c2blocks [] =
          [mkB 1 1 (9999995 / 10000000)] from rfl]
        exact List.cons_ne_nil _ _)

end VSOne
